import Mathlib

/-!
Shallow embedding of the kratos generator-hierarchy subsystem
(`src/kratos/generator.py`): instance creation, hash-keyed definition
caching with deferred-initialization cloning, code-block construction,
register-inference helpers, the named-statement registry, child
management and the clone lifecycle.

The Python module drives an external IR backend (the `_kratos` C++
binding, not part of the sources).  Backend primitives that the claims
depend on (port/variable allocation, block creation, sensitivity
conditions, named-block registration) are modelled from the spec where
noted; all control flow above them is translated from the source.
-/

namespace KratosSpec

/-- Python values that appear as keyword arguments / signal payloads in
the fragment under study. -/
inductive Val where
  | vstr (s : String)
  | vnat (n : Nat)
  | vbool (b : Bool)
deriving DecidableEq, Repr

/-- Modelled from the spec: Python's builtin `hash`, used by
`Generator.__cached_py_generator` on kwarg keys and values.  Within one
process it is a fixed deterministic function; it is modelled by a
concrete executable function (the caching logic only relies on
determinism). -/
def pyHash : Val → Nat
  | .vstr s => s.data.foldl (fun h c => h * 31 + c.toNat) 7
  | .vnat n => n
  | .vbool b => if b then 1 else 0

/-- A keyword-argument mapping, as the ordered association list Python
iterates over (`kargs.items()`); a well-formed mapping has no duplicate
keys (`List.NodupKeys`). -/
abbrev Kwargs := List ((_ : String) × Val)

/-- The hash loop of `Generator.__cached_py_generator`:
`hash_value = hash_value ^ (hash(key) << 16) ^ hash(value)` starting
from 0, XOR-accumulated over the items in iteration order. -/
def kwargsHash (kargs : Kwargs) : Nat :=
  kargs.foldl (fun h p => h ^^^ ((pyHash (.vstr p.1) <<< 16) ^^^ pyHash p.2)) 0

/-- `kargs[k] = v`: replace the value if the key is present (Python
dicts keep the original position), else append a new entry. -/
def kwInsert (kargs : Kwargs) (k : String) (v : Val) : Kwargs :=
  if kargs.any (fun p => p.1 == k) then
    kargs.map (fun p => if p.1 == k then ⟨k, v⟩ else p)
  else kargs ++ [⟨k, v⟩]

/-- `PortDirection` of the binding. -/
inductive PortDirection where
  | In | Out | InOut
deriving DecidableEq, Repr, Inhabited

/-- `PortType` of the binding. -/
inductive PortType where
  | Data | Clock | AsyncReset | ClockEnable | Reset
deriving DecidableEq, Repr, Inhabited

/-- `BlockEdgeType` of the binding. -/
inductive BlockEdgeType where
  | Posedge | Negedge
deriving DecidableEq, Repr, Inhabited

/-- `StatementBlockType` of the binding. -/
inductive StatementBlockType where
  | Combinational | Sequential
deriving DecidableEq, Repr, Inhabited

/-- A backend variable: name, bit width, signedness, array size
(`generator.var(name, width, size, is_signed)`). -/
structure IRVar where
  name : String
  width : Nat
  signed : Bool
  size : Nat
deriving DecidableEq, Repr, Inhabited

/-- A backend port (`generator.port(direction, name, width, size,
port_type, is_signed)`). -/
structure IRPort where
  name : String
  width : Nat
  direction : PortDirection
  port_type : PortType
  signed : Bool
  size : Nat
deriving DecidableEq, Repr, Inhabited

/-- Right-hand side of an assignment statement: either a reference to a
named signal (`new_var.assign(var)`) or an integer constant
(`new_var.assign(init_value)`). -/
inductive KExpr where
  | evar (name : String)
  | econst (v : Int)
deriving DecidableEq, Repr, Inhabited

/-- A statement node in the backend store.  `ifS` carries the predicate
signal name and the statement ids of its then/else bodies (mutable in
the backend: `if_stmt.then_body()` / `else_body()` append). -/
inductive StmtNode where
  | assignS (lhs : String) (rhs : KExpr)
  | ifS (pred : String) (thenIds : List Nat) (elseIds : List Nat)
deriving DecidableEq, Repr, Inhabited

/-- An assignment statement value as created detached by
`var.assign(expr)` before being inserted anywhere. -/
abbrev StmtVal := String × KExpr

/-- A backend statement block: combinational or sequential with its
sensitivity list of (edge, signal-name) conditions, holding statement
ids into the owner's statement store. -/
structure StmtBlock where
  block_type : StatementBlockType
  conditions : List (BlockEdgeType × String)
  stmts : List Nat
deriving DecidableEq, Repr, Inhabited

/-- The body handed to `add_code`, after the external statement compiler
(`transform_stmt_block`, outside these sources) has run.  Modelled from
the spec: a list of raw (edge, signal-name) sensitivities — empty for a
combinational body — plus the compiled assignment statements. -/
structure CodeBody where
  sens : List (BlockEdgeType × String)
  stmts : List StmtVal
deriving DecidableEq, Repr, Inhabited

/-- The handle registered with `mark_stmt`: either a raw backend
`StmtBlock` or a Python `CodeBlock` wrapper whose `stmt()` method
returns its block (both identified here by the block index). -/
inductive StmtHandle where
  | blockH (idx : Nat)
  | wrapperH (idx : Nat)
deriving DecidableEq, Repr, Inhabited

/-- The raw block a handle stands for (`stmt.stmt()` when the argument
is not already a raw `_kratos.StmtBlock`). -/
def StmtHandle.raw : StmtHandle → Nat
  | .blockH i => i
  | .wrapperH i => i

/-- A deferred call recorded in `__cached_initialization` while a
generator is cloned: the bound method plus its arguments. -/
inductive PendingOp where
  | pCombinational
  | pSequential (sens : List (BlockEdgeType × String))
  | pAddCode (body : CodeBody)
  | pAddStmt (s : StmtVal)
  | pRemoveStmt (s : StmtVal)
  | pWire (vto : String) (vfrom : String)
  | pAddChild (iname : String) (child : Nat)
  | pRemoveChild (child : Nat)
deriving DecidableEq, Repr, Inhabited

/-- Errors raised by the module: Python `raise Exception` / failed
`assert` statements, plus the backend failures described by the spec's
error taxonomy (DuplicateNameError, NotFoundError, UnknownSignalError,
precondition violations). -/
inductive Err where
  | duplicateName (msg : String)
  | notFound (msg : String)
  | unknownSignal (msg : String)
  | assertErr (msg : String)
  | typeErr (msg : String)
  | noneErr
deriving DecidableEq, Repr, Inhabited

/-- Result of a mutating call: Python exceptions propagate but leave the
object graph in whatever state it had reached, so both outcomes carry
the state. -/
inductive Res (σ : Type) (α : Type) where
  | ok (a : α) (s : σ)
  | err (e : Err) (s : σ)
deriving DecidableEq, Repr

/-- Sequencing of mutating calls; an error short-circuits (statements
after a raise do not run). -/
def Res.then {σ α β : Type} : Res σ α → (α → σ → Res σ β) → Res σ β
  | .ok a s, f => f a s
  | .err e s, _ => .err e s

/-- Is a call's outcome a success? -/
def Res.isOk {σ α : Type} : Res σ α → Bool
  | .ok _ _ => true
  | .err _ _ => false

/-- The state a call left behind (identical on success and failure). -/
def Res.getState {σ α : Type} : Res σ α → σ
  | .ok _ s => s
  | .err _ s => s

/-- Assoc-list lookup (Python dict membership / subscript on the
per-generator dicts). -/
def lookupA {κ α : Type} [BEq κ] (l : List (κ × α)) (k : κ) : Option α :=
  (l.find? (fun p => p.1 == k)).map (fun p => p.2)

/-- The backend `_kratos.Generator` object owned by one Python
`Generator` (`self.__generator`).  Modelled from the spec: the IR
backend owns ports, variables, statements, blocks and child links and
exposes creation/query primitives on them. -/
structure IRGenerator where
  name : String := ""
  instance_name : String := ""
  is_cloned : Bool := false
  debug : Bool := false
  def_instance : Option Nat := none
  ports : List IRPort := []
  vars : List IRVar := []
  stmt_store : List StmtNode := []
  blocks : List StmtBlock := []
  top_stmts : List Nat := []
  named_blocks : List (String × Nat) := []
  children : List (String × Nat) := []
deriving DecidableEq, Repr, Inhabited

/-- Backend query: does a port with this name exist (`has_port`). -/
def IRGenerator.hasPortB (ir : IRGenerator) (n : String) : Bool :=
  ir.ports.any (fun p => p.name == n)

/-- Backend query (`has_var` / `get_var` success): ports are registered
as variables of the generator as well, so a name exists as a signal iff
it names a port or a variable (spec: "does not exist as a port or
variable on the generator"). -/
def IRGenerator.hasVarB (ir : IRGenerator) (n : String) : Bool :=
  ir.ports.any (fun p => p.name == n) || ir.vars.any (fun v => v.name == n)

/-- Backend query `get_ports(port_type)`: the names of the ports of the
given type, in declaration order. -/
def IRGenerator.getPortsOfType (ir : IRGenerator) (t : PortType) : List String :=
  (ir.ports.filter (fun p => p.port_type == t)).map (fun p => p.name)

/-- Shape lookup for a named signal: a port is seen with its
width/signedness/size, else a plain variable is looked up
(`var_ref.width`, `var_ref.signed`, `var_ref.size`). -/
def IRGenerator.signalInfo (ir : IRGenerator) (n : String) : Option IRVar :=
  match ir.ports.find? (fun p => p.name == n) with
  | some p => some ⟨p.name, p.width, p.signed, p.size⟩
  | none => ir.vars.find? (fun v => v.name == n)

/-- Allocate a statement node in the backend store, returning its id. -/
def IRGenerator.allocStmt (ir : IRGenerator) (s : StmtNode) : Nat × IRGenerator :=
  (ir.stmt_store.length, { ir with stmt_store := ir.stmt_store ++ [s] })

/-- Update one statement block in place (backend blocks are mutable
objects reached through their handle). -/
def IRGenerator.modifyBlock (ir : IRGenerator) (i : Nat)
    (f : StmtBlock → StmtBlock) : IRGenerator :=
  { ir with blocks := ir.blocks.set i (f (ir.blocks.getD i default)) }

/-- The Python `Generator` wrapper object: its backend generator plus
the per-instance bookkeeping dicts of `Generator.__init__`. -/
structure Generator where
  gen : IRGenerator := {}
  cached_initialization : List PendingOp := []
  child_generator : List (String × Nat) := []
  def_instance : Nat := 0
  reg_next_stmt : List (String × Option Nat) := []
  reg_init_stmt : List ((String × String) × Nat) := []
  reg_en_stmt : List ((String × String) × Nat) := []
  stmt_label_mapping : List (String × StmtHandle) := []
  parent : Option Nat := none
deriving DecidableEq, Repr, Inhabited

namespace Generator

/-- `Generator.var`: allocate a variable in the backend generator and
return it.  Modelled from the spec: names must be unique within the
generator or the backend reports a duplicate error.  The `packed` flag
and debug source locations are not modelled (no claim mentions them). -/
def var (g : Generator) (name : String) (width : Nat)
    (is_signed : Bool) (size : Nat) : Res Generator IRVar :=
  if g.gen.hasVarB name then .err (.duplicateName name) g
  else
    let v : IRVar := ⟨name, width, is_signed, size⟩
    .ok v { g with gen := { g.gen with vars := g.gen.vars ++ [v] } }

/-- `Generator.port`: allocate a port in the backend generator.
Modelled from the spec: duplicate names are a backend error. -/
def port (g : Generator) (name : String) (width : Nat)
    (direction : PortDirection) (port_type : PortType)
    (is_signed : Bool) (size : Nat) : Res Generator IRPort :=
  if g.gen.hasVarB name then .err (.duplicateName name) g
  else
    let p : IRPort := ⟨name, width, direction, port_type, is_signed, size⟩
    .ok p { g with gen := { g.gen with ports := g.gen.ports ++ [p] } }

/-- Backend block constructor used by `CodeBlock.__init__`: a fresh
block of the requested kind with no sensitivity and no statements,
owned by the generator; returns its index. -/
def newBlock (g : Generator) (bt : StatementBlockType) : Nat × Generator :=
  (g.gen.blocks.length,
   { g with gen := { g.gen with blocks := g.gen.blocks ++ [⟨bt, [], []⟩] } })

/-- Modelled from the spec: `StmtBlock.add_condition` on a sequential
block attaches one (edge, signal) sensitivity pair; a signal that does
not already exist in the generator fails with an UnknownSignalError. -/
def addCondition (g : Generator) (blk : Nat)
    (c : BlockEdgeType × String) : Res Generator Unit :=
  if g.gen.hasVarB c.2 then
    let ir := g.gen.modifyBlock blk (fun b => { b with conditions := b.conditions ++ [c] })
    .ok () { g with gen := ir }
  else .err (.unknownSignal c.2) g

/-- The `for cond, var in sensitivity_list` loop of
`SequentialCodeBlock.__init__`, attaching the conditions in order. -/
def addConditions (g : Generator) (blk : Nat) :
    List (BlockEdgeType × String) → Res Generator Unit
  | [] => .ok () g
  | c :: rest => (g.addCondition blk c).then fun _ g => g.addConditions blk rest

/-- `CodeBlock.add_stmt` on a block handle: insert one assignment
statement into the block's backend statement container. -/
def blockAddStmt (g : Generator) (blk : Nat) (s : StmtVal) : Generator :=
  let (i, ir) := g.gen.allocStmt (.assignS s.1 s.2)
  { g with gen := ir.modifyBlock blk (fun b => { b with stmts := b.stmts ++ [i] }) }

/-- Insert a list of compiled statements into a block, in order
(the `for stmt in stmts` loops of `add_code`). -/
def blockAddStmts (g : Generator) (blk : Nat) : List StmtVal → Generator
  | [] => g
  | s :: rest => (g.blockAddStmt blk s).blockAddStmts blk rest

/-- `CodeBlock.if_(predicate)` (the `if_` builder of `kratos.stmts`,
outside these sources).  Modelled from the spec: opens a conditional
branch on the predicate inside the block, with empty true/false paths;
returns the if-statement's id. -/
def blockAddIf (g : Generator) (blk : Nat) (pred : String) : Nat × Generator :=
  let (i, ir) := g.gen.allocStmt (.ifS pred [] [])
  let ir2 := ir.modifyBlock blk (fun b => { b with stmts := b.stmts ++ [i] })
  (i, { g with gen := ir2 })

/-- Modelled from the spec: `if_stmt.then_body()` exposes the branch's
true path; appending adds one statement to it. -/
def ifAddThen (g : Generator) (ifId : Nat) (s : StmtVal) : Res Generator Unit :=
  match g.gen.stmt_store.getD ifId default with
  | .ifS p t e =>
      let (i, ir) := g.gen.allocStmt (.assignS s.1 s.2)
      .ok () { g with gen :=
        { ir with stmt_store := ir.stmt_store.set ifId (.ifS p (t ++ [i]) e) } }
  | _ => .err (.typeErr "then_body") g

/-- Modelled from the spec: `if_stmt.else_body()` exposes the branch's
false path; appending adds one statement to it. -/
def ifAddElse (g : Generator) (ifId : Nat) (s : StmtVal) : Res Generator Unit :=
  match g.gen.stmt_store.getD ifId default with
  | .ifS p t e =>
      let (i, ir) := g.gen.allocStmt (.assignS s.1 s.2)
      .ok () { g with gen :=
        { ir with stmt_store := ir.stmt_store.set ifId (.ifS p t (e ++ [i])) } }
  | _ => .err (.typeErr "else_body") g

/-- `Generator.combinational`: queued while cloned (returning `None`),
otherwise builds a `CombinationalCodeBlock` and returns it. -/
def combinational (g : Generator) : Res Generator (Option Nat) :=
  if g.gen.is_cloned then
    .ok none { g with cached_initialization :=
                g.cached_initialization ++ [.pCombinational] }
  else
    let (idx, g) := g.newBlock .Combinational
    .ok (some idx) g

/-- `Generator.sequential(*sensitivity_list)`: queued while cloned
(returning `None`), otherwise builds a `SequentialCodeBlock`, attaching
each sensitivity condition in order, and returns it. -/
def sequential (g : Generator)
    (sens : List (BlockEdgeType × String)) : Res Generator (Option Nat) :=
  if g.gen.is_cloned then
    .ok none { g with cached_initialization :=
                g.cached_initialization ++ [.pSequential sens] }
  else
    let (idx, g) := g.newBlock .Sequential
    (g.addConditions idx sens).then fun _ g => .ok (some idx) g

/-- `Generator.add_stmt`: queued while cloned, otherwise inserts the
statement into the generator's top-level statement list. -/
def add_stmt (g : Generator) (s : StmtVal) : Res Generator Unit :=
  if g.gen.is_cloned then
    .ok () { g with cached_initialization :=
              g.cached_initialization ++ [.pAddStmt s] }
  else
    let (i, ir) := g.gen.allocStmt (.assignS s.1 s.2)
    .ok () { g with gen := { ir with top_stmts := ir.top_stmts ++ [i] } }

/-- `Generator.remove_stmt`: queued while cloned, otherwise removes the
statement from the generator's top-level list (modelled from the spec:
the backend drops the matching statement). -/
def remove_stmt (g : Generator) (s : StmtVal) : Res Generator Unit :=
  if g.gen.is_cloned then
    .ok () { g with cached_initialization :=
              g.cached_initialization ++ [.pRemoveStmt s] }
  else
    let keep := g.gen.top_stmts.filter (fun i =>
      g.gen.stmt_store.getD i default != .assignS s.1 s.2)
    .ok () { g with gen := { g.gen with top_stmts := keep } }

/-- `Generator.wire(var_to, var_from)`: queued while cloned.  Modelled
from the spec: both operands must exist; the backend picks the
assignment direction (port-to-port wiring or the
`correct_wire_direction` check) and exactly one assignment statement is
inserted into the generator's top-level list, modelled here in the
`var_to := var_from` direction. -/
def wire (g : Generator) (vto : String) (vfrom : String) : Res Generator Unit :=
  if g.gen.is_cloned then
    .ok () { g with cached_initialization :=
              g.cached_initialization ++ [.pWire vto vfrom] }
  else if g.gen.hasVarB vto && g.gen.hasVarB vfrom then
    let (i, ir) := g.gen.allocStmt (.assignS vto (.evar vfrom))
    .ok () { g with gen := { ir with top_stmts := ir.top_stmts ++ [i] } }
  else .err (.unknownSignal "wire") g

/-- `Generator.add_code(fn)`: queued while cloned (only the body is
recorded).  Otherwise the compiled body is inserted: a combinational
block when there are no sensitivities, else a sequential block over the
named signals (each must exist), receiving the compiled statements in
order. -/
def add_code (g : Generator) (body : CodeBody) : Res Generator Unit :=
  if g.gen.is_cloned then
    .ok () { g with cached_initialization :=
              g.cached_initialization ++ [.pAddCode body] }
  else if body.sens.isEmpty then
    let (idx, g) := g.newBlock .Combinational
    .ok () (g.blockAddStmts idx body.stmts)
  else if body.sens.all (fun c => g.gen.hasVarB c.2) then
    let (idx, g) := g.newBlock .Sequential
    (g.addConditions idx body.sens).then fun _ g =>
      .ok () (g.blockAddStmts idx body.stmts)
  else .err (.unknownSignal "add_code") g

/-- `Generator.__get_port_name_type(port, port_type)`: when no port is
given, take the first of the backend's ports of that type (an empty
candidate list is a failed assertion); then resolve the name through
the port proxy (missing ports are an UnknownSignalError) and assert
`has_port`. -/
def get_port_name_type (g : Generator) (port : Option String)
    (pt : PortType) : Except Err String :=
  let pname : Except Err String :=
    match port with
    | none =>
        match g.gen.getPortsOfType pt with
        | [] => .error (.assertErr "signal not found")
        | n :: _ => .ok n
    | some s => .ok s
  match pname with
  | .error e => .error e
  | .ok n => if g.gen.hasPortB n then .ok n else .error (.unknownSignal n)

/-- `Generator.__get_var_assert(var)` for a signal given by name: the
variable proxy resolves it (a name that is neither a port nor a
variable of the generator is an UnknownSignalError) and `has_var` is
asserted. -/
def get_var_assert (g : Generator) (v : String) : Except Err IRVar :=
  match g.gen.signalInfo v with
  | some info => .ok info
  | none => .error (.unknownSignal v)

/-- `Generator.__create_new_var(var_name, var_ref)`: declare a fresh
variable shaped like the reference (same width, signedness, size). -/
def create_new_var (g : Generator) (var_name : String)
    (var_ref : IRVar) : Res Generator IRVar :=
  g.var var_name var_ref.width var_ref.signed var_ref.size

/-- `Generator.reg_next(var_name, var, clk)`: resolve the clock, create
and cache (by clock name) a posedge sequential block if none exists for
it, declare a new variable shaped like the source and append
`new_var = source` to the block. -/
def reg_next (g : Generator) (var_name : String) (src : String)
    (clk : Option String) : Res Generator IRVar :=
  match g.get_port_name_type clk .Clock with
  | .error e => .err e g
  | .ok clk_name =>
    let step : Res Generator Unit :=
      match lookupA g.reg_next_stmt clk_name with
      | some _ => .ok () g
      | none =>
          (g.sequential [(.Posedge, clk_name)]).then fun blk g =>
            .ok () { g with reg_next_stmt := g.reg_next_stmt ++ [(clk_name, blk)] }
    step.then fun _ g =>
      match g.get_var_assert src with
      | .error e => .err e g
      | .ok info =>
          (g.create_new_var var_name info).then fun nv g =>
            match lookupA g.reg_next_stmt clk_name with
            | some (some blk) => .ok nv (g.blockAddStmt blk (nv.name, .evar src))
            | some none => .err .noneErr g
            | none => .err .noneErr g

/-- `Generator.reg_init(var_name, var, clk, reset, init_value)`:
resolve clock and async reset; on the first call for the pair create a
posedge/posedge sequential block, open a conditional branch on the
reset and cache the branch by the pair; declare a new variable shaped
like the source, append `new_var = source` to the branch's false path
and `new_var = init_value` to its true path (in that source order). -/
def reg_init (g : Generator) (var_name : String) (src : String)
    (clk : Option String) (reset : Option String)
    (init_value : Int) : Res Generator IRVar :=
  match g.get_port_name_type clk .Clock with
  | .error e => .err e g
  | .ok clk_name =>
  match g.get_port_name_type reset .AsyncReset with
  | .error e => .err e g
  | .ok rst_name =>
    let step : Res Generator Unit :=
      match lookupA g.reg_init_stmt (clk_name, rst_name) with
      | some _ => .ok () g
      | none =>
          (g.sequential [(.Posedge, clk_name), (.Posedge, rst_name)]).then
            fun blk g =>
              match blk with
              | none => .err .noneErr g
              | some b =>
                  let (ifId, g) := g.blockAddIf b rst_name
                  .ok () { g with reg_init_stmt :=
                            g.reg_init_stmt ++ [((clk_name, rst_name), ifId)] }
    step.then fun _ g =>
      match lookupA g.reg_init_stmt (clk_name, rst_name) with
      | none => .err .noneErr g
      | some ifId =>
        match g.get_var_assert src with
        | .error e => .err e g
        | .ok info =>
            (g.create_new_var var_name info).then fun nv g =>
              (g.ifAddElse ifId (nv.name, .evar src)).then fun _ g =>
                (g.ifAddThen ifId (nv.name, .econst init_value)).then fun _ g =>
                  .ok nv g

/-- `Generator.reg_enable(var_name, var, en, clk)`: resolve the clock;
source and enable names are resolved through the port proxy and
`has_var` is asserted; on the first call for the (clock, enable) pair
create a posedge sequential block with a conditional branch on the
enable, cached by the pair; declare a new variable shaped like the
source and append `new_var = source` to the branch's true path only. -/
def reg_enable (g : Generator) (var_name : String) (src : String)
    (en : String) (clk : Option String) : Res Generator IRVar :=
  match g.get_port_name_type clk .Clock with
  | .error e => .err e g
  | .ok clk_name =>
  if ¬ g.gen.hasPortB src then .err (.unknownSignal src) g
  else if ¬ g.gen.hasVarB src then .err (.assertErr src) g
  else if ¬ g.gen.hasPortB en then .err (.unknownSignal en) g
  else if ¬ g.gen.hasVarB en then .err (.assertErr en) g
  else
    let step : Res Generator Unit :=
      match lookupA g.reg_en_stmt (clk_name, en) with
      | some _ => .ok () g
      | none =>
          (g.sequential [(.Posedge, clk_name)]).then fun blk g =>
            match blk with
            | none => .err .noneErr g
            | some b =>
                let (ifId, g) := g.blockAddIf b en
                .ok () { g with reg_en_stmt :=
                          g.reg_en_stmt ++ [((clk_name, en), ifId)] }
    step.then fun _ g =>
      match lookupA g.reg_en_stmt (clk_name, en) with
      | none => .err .noneErr g
      | some ifId =>
        match g.get_var_assert src with
        | .error e => .err e g
        | .ok info =>
            (g.create_new_var var_name info).then fun nv g =>
              (g.ifAddThen ifId (nv.name, .evar src)).then fun _ g =>
                .ok nv g

/-- `Generator.mark_stmt(name, stmt)`: reject a label the backend
already knows (before any mutation), otherwise record the handle in the
label map and register the raw block with the backend. -/
def mark_stmt (g : Generator) (name : String)
    (stmt : StmtHandle) : Res Generator Unit :=
  if g.gen.named_blocks.any (fun p => p.1 == name) then
    .err (.duplicateName name) g
  else
    .ok () { g with
      stmt_label_mapping := g.stmt_label_mapping ++ [(name, stmt)],
      gen := { g.gen with named_blocks :=
                g.gen.named_blocks ++ [(name, stmt.raw)] } }

/-- `Generator.get_marked_stmt(name)`: assert the label is present and
return exactly the handle that was registered. -/
def get_marked_stmt (g : Generator) (name : String) : Except Err StmtHandle :=
  match lookupA g.stmt_label_mapping name with
  | some h => .ok h
  | none => .error (.assertErr name)

end Generator

/-- One Python class in the `Generator` hierarchy.  `GeneratorMeta`
gives every class object its own fresh `_cache` dict; `parent` is the
class it directly derives from (class index 0 is the `Generator` base
class itself, whose `parent` is `none`). -/
structure PyClass where
  parent : Option Nat := none
  cache : List (Nat × Nat) := []
deriving DecidableEq, Repr, Inhabited

/-- Process-wide build state: every Python `Generator` object created so
far (identified by index), the backend's process-wide `_kratos.Context`
(modelled by the ids of the generators registered with it), the
module-level `__GLOBAL_DEBUG` flag, and the class hierarchy with its
per-class caches. -/
structure Ctx where
  gens : List Generator := []
  context_gens : List Nat := []
  global_debug : Bool := false
  classes : List PyClass := []
deriving DecidableEq, Repr, Inhabited

/-- Dereference a generator id (Python object references are never
dangling; out-of-range reads yield the default object). -/
def getGen (ctx : Ctx) (i : Nat) : Generator :=
  ctx.gens.getD i default

/-- Write back the state of one generator object. -/
def setGen (ctx : Ctx) (i : Nat) (g : Generator) : Ctx :=
  { ctx with gens := ctx.gens.set i g }

/-- In-place mutation of one generator object. -/
def modifyGen (ctx : Ctx) (i : Nat) (f : Generator → Generator) : Ctx :=
  setGen ctx i (f (getGen ctx i))

/-- In-place mutation of one class object's `_cache`. -/
def modifyClass (ctx : Ctx) (i : Nat) (f : PyClass → PyClass) : Ctx :=
  { ctx with classes := ctx.classes.set i (f (ctx.classes.getD i default)) }

/-- Run a single-generator operation on the object graph. -/
def liftGen {α : Type} (op : Generator → Res Generator α)
    (ctx : Ctx) (i : Nat) : Res Ctx α :=
  match op (getGen ctx i) with
  | .ok a g => .ok a (setGen ctx i g)
  | .err e g => .err e (setGen ctx i g)

/-- `Generator.__init__(name, debug, is_clone)`: allocate the new
Python object and its backend generator.  With `is_clone` unset and a
non-empty name the backend context builds and registers a named
generator; otherwise `context.empty_generator()` is used and the
backend generator is flagged cloned.  `__set_generator_name` then
stores the name, the effective debug flag is the argument or the
module-wide default, and `__def_instance` starts as the object
itself. -/
def genInit (ctx : Ctx) (name : String) (debug : Bool)
    (is_clone : Bool) : Nat × Ctx :=
  let gid := ctx.gens.length
  let fresh : Bool := !is_clone && !name.isEmpty
  let ir : IRGenerator :=
    { name := name, is_cloned := !fresh, debug := debug || ctx.global_debug }
  let cgens :=
    if fresh then ctx.context_gens ++ [gid] else ctx.context_gens
  let g : Generator := { gen := ir, def_instance := gid }
  (gid, { ctx with gens := ctx.gens ++ [g], context_gens := cgens })

/-- `cls(**kargs)`: keyword binding of the constructor parameters.  A
mapping without a (string) `name` is a `TypeError`; `debug` and
`is_clone` default to `False`. -/
def genInitKw (ctx : Ctx) (kargs : Kwargs) : Res Ctx Nat :=
  match kargs.dlookup "name" with
  | some (.vstr n) =>
      let debug := match kargs.dlookup "debug" with
        | some (.vbool b) => b
        | _ => false
      let is_clone := match kargs.dlookup "is_clone" with
        | some (.vbool b) => b
        | _ => false
      let (gid, ctx) := genInit ctx n debug is_clone
      .ok gid ctx
  | _ => .err (.typeErr "name") ctx

/-- `Generator.__cached_py_generator`: hash the mapping, return the
cached instance on a hit (flagged `cached`), else construct, memoize
and return a fresh one. -/
def cachedPyGenerator (ctx : Ctx) (cls : Nat)
    (kargs : Kwargs) : Res Ctx (Nat × Bool) :=
  let h := kwargsHash kargs
  match lookupA (ctx.classes.getD cls default).cache h with
  | none =>
      (genInitKw ctx kargs).then fun gid ctx =>
        .ok (gid, false)
          (modifyClass ctx cls (fun c => { c with cache := c.cache ++ [(h, gid)] }))
  | some gid => .ok (gid, true) ctx

/-- `Generator.create(**kargs)` on the class with index `cls`: with
global debug enabled, always a fresh fully-initialized instance; else a
cache miss returns the fresh instance and a hit constructs the same
class with `is_clone=True`, pointing its `__def_instance` (and the
backend `def_instance`) at the cached generator. -/
def create (ctx : Ctx) (cls : Nat) (kargs : Kwargs) : Res Ctx Nat :=
  if ctx.global_debug then genInitKw ctx kargs
  else
    (cachedPyGenerator ctx cls kargs).then fun gc ctx =>
      if gc.2 then
        (genInitKw ctx (kwInsert kargs "is_clone" (.vbool true))).then fun g ctx =>
          let ctx := modifyGen ctx g (fun pg =>
            { pg with def_instance := gc.1,
                      gen := { pg.gen with def_instance := some gc.1 } })
          .ok g ctx
      else .ok gc.1 ctx

/-- `Generator.clear_context()`: clear the backend context, then clear
`cls._cache` for every class in `Generator.__subclasses__()` — in
Python that list holds exactly the classes whose direct base is
`Generator` (class index 0).  (The `kratos.func` call cache it also
clears is outside these sources.) -/
def clear_context (ctx : Ctx) : Ctx :=
  { ctx with
    context_gens := [],
    classes := ctx.classes.map (fun c =>
      if c.parent == some 0 then { c with cache := [] } else c) }

/-- `Generator.add_child_generator(instance_name, generator)`: queued
while the parent is cloned.  Otherwise the child's backend instance
name is set first; a name already among the parent's children then
raises a duplicate error (nothing registered); otherwise the child is
recorded in the parent's child map, its parent reference is set, and
the backend is told about the link. -/
def add_child_generator (ctx : Ctx) (self : Nat) (iname : String)
    (child : Nat) : Res Ctx Unit :=
  if (getGen ctx self).gen.is_cloned then
    .ok () (modifyGen ctx self (fun g =>
      { g with cached_initialization :=
                g.cached_initialization ++ [.pAddChild iname child] }))
  else
    let ctx := modifyGen ctx child (fun c =>
      { c with gen := { c.gen with instance_name := iname } })
    if (getGen ctx self).child_generator.any (fun p => p.1 == iname) then
      .err (.duplicateName iname) ctx
    else
      let ctx := modifyGen ctx self (fun g =>
        { g with child_generator := g.child_generator ++ [(iname, child)],
                 gen := { g.gen with children := g.gen.children ++ [(iname, child)] } })
      .ok () (modifyGen ctx child (fun c => { c with parent := some self }))

/-- `Generator.remove_child_generator(generator)`: queued while the
parent is cloned; a child whose instance name is not in the child map
raises; otherwise it is dropped from the child map and the backend
link is removed. -/
def remove_child_generator (ctx : Ctx) (self : Nat)
    (child : Nat) : Res Ctx Unit :=
  if (getGen ctx self).gen.is_cloned then
    .ok () (modifyGen ctx self (fun g =>
      { g with cached_initialization :=
                g.cached_initialization ++ [.pRemoveChild child] }))
  else
    let cname := (getGen ctx child).gen.instance_name
    if ¬ (getGen ctx self).child_generator.any (fun p => p.1 == cname) then
      .err (.notFound cname) ctx
    else
      .ok () (modifyGen ctx self (fun g =>
        { g with child_generator := g.child_generator.filter (fun p => p.1 != cname),
                 gen := { g.gen with children :=
                           g.gen.children.filter (fun p => p.2 != child) } }))

/-- Replaying one queued call re-invokes the public method it recorded
(`fn(*args)` in `initialize_clone`). -/
def applyPending (ctx : Ctx) (i : Nat) : PendingOp → Res Ctx Unit
  | .pCombinational =>
      (liftGen Generator.combinational ctx i).then fun _ c => .ok () c
  | .pSequential sens =>
      (liftGen (fun g => g.sequential sens) ctx i).then fun _ c => .ok () c
  | .pAddCode body => liftGen (fun g => g.add_code body) ctx i
  | .pAddStmt s => liftGen (fun g => g.add_stmt s) ctx i
  | .pRemoveStmt s => liftGen (fun g => g.remove_stmt s) ctx i
  | .pWire vto vfrom => liftGen (fun g => g.wire vto vfrom) ctx i
  | .pAddChild n ch => add_child_generator ctx i n ch
  | .pRemoveChild ch => remove_child_generator ctx i ch

/-- The replay loop of `initialize_clone`, in original call order. -/
def replayPending (ctx : Ctx) (i : Nat) : List PendingOp → Res Ctx Unit
  | [] => .ok () ctx
  | op :: rest =>
      (applyPending ctx i op).then fun _ ctx => replayPending ctx i rest

/-- `Generator.initialize_clone()`: only on a cloned generator — flip
the backend cloned flag off, replay every queued call in order, then
clear the queue.  (The replayed calls cannot re-queue: the flag is
already off when they run.) -/
def initialize_clone (ctx : Ctx) (i : Nat) : Res Ctx Unit :=
  if (getGen ctx i).gen.is_cloned then
    (replayPending
        (modifyGen ctx i (fun g =>
          { g with gen := { g.gen with is_cloned := false } })) i
        ((getGen ctx i).cached_initialization)).then fun _ ctx =>
      .ok () (modifyGen ctx i (fun g => { g with cached_initialization := [] }))
  else .ok () ctx

/-- Fields preserved by one result, success or failure. -/
def PreservesG {α : Type} (g : Generator) (r : Res Generator α) : Prop :=
  (r.getState).gen.is_cloned = g.gen.is_cloned ∧
  (r.getState).cached_initialization = g.cached_initialization

/-- Fields preserved at every object by a context-level result. -/
def PreservesC (ctx : Ctx) (i : Nat) (r : Res Ctx Unit) : Prop :=
  (getGen r.getState i).gen.is_cloned = (getGen ctx i).gen.is_cloned ∧
  (getGen r.getState i).cached_initialization =
    (getGen ctx i).cached_initialization

/-- Concrete fixture: the build state right after
`Generator("", is_clone=False)` — one generator, cloned because its
name is empty. -/
def exCtxClone0 : Ctx := (genInit { } "" false false).2

/-- Concrete fixture: one cloned generator carrying one variable and a
queued `add_stmt` call. -/
def exCtxQueue : Ctx :=
  { gens := [{ gen := { is_cloned := true, vars := [⟨"x", 1, false, 1⟩] },
               cached_initialization := [.pAddStmt ("x", .econst 1)] }] }

/-- Concrete fixture: the state `exCtxQueue` reaches after
`initialize_clone`: active, queue drained into the IR, queue cleared. -/
def exCtxDone : Ctx :=
  { gens :=
      [{ gen :=
           { is_cloned := false,
             vars := [⟨"x", 1, false, 1⟩],
             stmt_store := [.assignS "x" (.econst 1)],
             top_stmts := [0] },
         cached_initialization := [] }] }

/-- Concrete fixture: a build state with one existing generator and one
class deriving directly from `Generator` (class 0), whose cache holds
the mapping `name="a"`. -/
def exCtxDirect : Ctx :=
  { gens := [{ }],
    classes := [{ },
      { parent := some 0,
        cache := [(kwargsHash [⟨"name", .vstr "a"⟩], 0)] }] }

/-- Concrete fixture: as `exCtxDirect` plus an indirect subclass
(class 2 derives from class 1) whose cache holds the mapping
`name="b"`. -/
def exCtxIndirect : Ctx :=
  { gens := [{ }],
    classes := [{ },
      { parent := some 0,
        cache := [(kwargsHash [⟨"name", .vstr "a"⟩], 0)] },
      { parent := some 1,
        cache := [(kwargsHash [⟨"name", .vstr "b"⟩], 0)] }] }

/-! ### Shared helper lemmas -/

theorem getD_append_len {α : Type} (l : List α) (b d : α) :
    (l ++ [b]).getD l.length d = b := by
  simp [List.getD_append_right]

theorem set_append_len {α : Type} (l : List α) (b b' : α) :
    (l ++ [b]).set l.length b' = l ++ [b'] := by
  rw [List.set_append_right] <;> simp

theorem find?_eq_none_of_any_false {α : Type} (l : List α) (p : α → Bool)
    (h : l.any p = false) : l.find? p = none := by
  rw [List.find?_eq_none]
  intro x hx
  simpa using List.any_eq_false.mp h x hx

theorem lookupA_append_last {κ α : Type} [BEq κ] [LawfulBEq κ]
    (l : List (κ × α)) (k : κ) (v : α)
    (h : l.any (fun p => p.1 == k) = false) :
    lookupA (l ++ [(k, v)]) k = some v := by
  unfold lookupA
  rw [List.find?_append, find?_eq_none_of_any_false _ _ h]
  simp

theorem any_false_of_lookupA_none {κ α : Type} [BEq κ]
    (l : List (κ × α)) (k : κ) (h : lookupA l k = none) :
    l.any (fun p => p.1 == k) = false := by
  unfold lookupA at h
  rw [Option.map_eq_none'] at h
  rw [List.any_eq_false]
  intro x hx
  have := List.find?_eq_none.mp h x hx
  simpa using this

theorem hasVarB_modifyBlock (ir : IRGenerator) (i : Nat)
    (f : StmtBlock → StmtBlock) (n : String) :
    (ir.modifyBlock i f).hasVarB n = ir.hasVarB n := rfl

/-! ### Lemmas on sequential block construction -/

theorem addConditions_ok (l : List (BlockEdgeType × String)) (g : Generator)
    (bs : List StmtBlock) (b : StmtBlock)
    (hb : g.gen.blocks = bs ++ [b])
    (hall : ∀ c ∈ l, g.gen.hasVarB c.2 = true) :
    g.addConditions bs.length l =
      .ok () { g with gen := { g.gen with blocks :=
        bs ++ [{ b with conditions := b.conditions ++ l }] } } := by
  induction l generalizing g b with
  | nil =>
      simp only [Generator.addConditions, List.append_nil]
      rw [← hb]
  | cons c rest ih =>
      have hc : g.gen.hasVarB c.2 = true := hall c (by simp)
      simp only [Generator.addConditions, Generator.addCondition, hc, if_true,
        IRGenerator.modifyBlock, hb, getD_append_len, set_append_len, Res.then]
      have ih2 := ih { g with gen := { g.gen with blocks :=
          bs ++ [{ b with conditions := b.conditions ++ [c] }] } }
        { b with conditions := b.conditions ++ [c] } rfl
        (fun x hx => hall x (by simp [hx]))
      simp only [ih2, List.append_assoc, List.singleton_append]

theorem addConditions_err (l : List (BlockEdgeType × String)) (g : Generator)
    (blk : Nat) (hbad : ¬ ∀ c ∈ l, g.gen.hasVarB c.2 = true) :
    ∃ s g', g.addConditions blk l = .err (.unknownSignal s) g' ∧
      g.gen.hasVarB s = false := by
  induction l generalizing g with
  | nil => simp at hbad
  | cons c rest ih =>
      by_cases hc : g.gen.hasVarB c.2 = true
      · have hbad' : ¬ ∀ x ∈ rest, g.gen.hasVarB x.2 = true := by
          intro hall
          exact hbad (by
            intro x hx
            rcases List.mem_cons.mp hx with h | h
            · exact h ▸ hc
            · exact hall x h)
        have hstep := ih
          { g with gen := (g.gen.modifyBlock blk
              (fun b => { b with conditions := b.conditions ++ [c] })) } hbad'
        obtain ⟨s, g', hrun, hsig⟩ := hstep
        refine ⟨s, g', ?_, hsig⟩
        simp only [Generator.addConditions, Generator.addCondition, hc, if_true,
          Res.then]
        exact hrun
      · have hc' : g.gen.hasVarB c.2 = false := by
          simpa using hc
        exact ⟨c.2, g, by simp [Generator.addConditions, Generator.addCondition,
          hc', Res.then], hc'⟩

theorem sequential_ok (g : Generator) (sens : List (BlockEdgeType × String))
    (hc : g.gen.is_cloned = false)
    (hall : ∀ c ∈ sens, g.gen.hasVarB c.2 = true) :
    g.sequential sens = .ok (some g.gen.blocks.length)
      { g with gen := { g.gen with blocks :=
        g.gen.blocks ++ [⟨.Sequential, sens, []⟩] } } := by
  unfold Generator.sequential
  rw [hc]
  simp only [Bool.false_eq_true, if_false, Generator.newBlock]
  have h := addConditions_ok sens
    { g with gen := { g.gen with blocks :=
        g.gen.blocks ++ [⟨.Sequential, [], []⟩] } }
    g.gen.blocks ⟨.Sequential, [], []⟩ rfl (fun c hcm => hall c hcm)
  simp only [h, Res.then]
  rfl

theorem sequential_err (g : Generator) (sens : List (BlockEdgeType × String))
    (hc : g.gen.is_cloned = false)
    (hbad : ¬ ∀ c ∈ sens, g.gen.hasVarB c.2 = true) :
    ∃ s g', g.sequential sens = .err (.unknownSignal s) g' ∧
      g.gen.hasVarB s = false := by
  unfold Generator.sequential
  rw [hc]
  simp only [Bool.false_eq_true, if_false, Generator.newBlock]
  obtain ⟨s, g', hrun, hsig⟩ := addConditions_err sens
    { g with gen := { g.gen with blocks :=
        g.gen.blocks ++ [⟨.Sequential, [], []⟩] } }
    g.gen.blocks.length (by simpa using hbad)
  exact ⟨s, g', by simp [hrun, Res.then], hsig⟩

/-! ### Claim C7 -/

/-- C7: on a non-cloned generator, `sequential(*edges)` with every
named signal present builds one sequential block carrying exactly the
given sensitivity pairs; if some entry's signal is absent from the
generator, the call fails with an UnknownSignalError. -/
theorem c7_sequential_sensitivity (g : Generator)
    (sens : List (BlockEdgeType × String))
    (hc : g.gen.is_cloned = false) :
    ((∀ c ∈ sens, g.gen.hasVarB c.2 = true) →
      g.sequential sens = .ok (some g.gen.blocks.length)
        { g with gen := { g.gen with blocks :=
          g.gen.blocks ++ [⟨.Sequential, sens, []⟩] } }) ∧
    ((¬ ∀ c ∈ sens, g.gen.hasVarB c.2 = true) →
      ∃ s g', g.sequential sens = .err (.unknownSignal s) g' ∧
        g.gen.hasVarB s = false) :=
  ⟨fun hall => sequential_ok g sens hc hall,
   fun hbad => sequential_err g sens hc hbad⟩

/-- Witness for C7 at a concrete generator: a present signal builds the
block with the given sensitivity; an absent one is an
UnknownSignalError. -/
theorem c7_sequential_sensitivity_witness :
    (Generator.sequential
        { gen := { ports := [⟨"clk", 1, .In, .Clock, false, 1⟩] } }
        [(.Posedge, "clk")] =
      .ok (some 0)
        { gen := { ports := [⟨"clk", 1, .In, .Clock, false, 1⟩],
                   blocks := [⟨.Sequential, [(.Posedge, "clk")], []⟩] } }) ∧
    (∃ s g', Generator.sequential
        { gen := { ports := [⟨"clk", 1, .In, .Clock, false, 1⟩] } }
        [(.Posedge, "missing")] = .err (.unknownSignal s) g') := by
  constructor
  · have h := (c7_sequential_sensitivity
      { gen := { ports := [⟨"clk", 1, .In, .Clock, false, 1⟩] } }
      [(.Posedge, "clk")] rfl).1 (by decide)
    simpa using h
  · obtain ⟨s, g', hrun, -⟩ := (c7_sequential_sensitivity
      { gen := { ports := [⟨"clk", 1, .In, .Clock, false, 1⟩] } }
      [(.Posedge, "missing")] rfl).2 (by decide)
    exact ⟨s, g', hrun⟩

/-! ### Lemmas on signal lookups and the register helpers -/

theorem hasVarB_of_hasPortB (ir : IRGenerator) (n : String)
    (h : ir.hasPortB n = true) : ir.hasVarB n = true := by
  unfold IRGenerator.hasPortB at h
  unfold IRGenerator.hasVarB
  rw [h]
  rfl

theorem gpnt_some (g : Generator) (c : String) (pt : PortType)
    (h : g.gen.hasPortB c = true) :
    g.get_port_name_type (some c) pt = .ok c := by
  simp [Generator.get_port_name_type, h]

theorem signalInfo_vars_append (ir : IRGenerator) (w : List IRVar)
    (s : String) (i : IRVar) (hs : ir.signalInfo s = some i) :
    IRGenerator.signalInfo { ir with vars := ir.vars ++ w } s = some i := by
  unfold IRGenerator.signalInfo at hs ⊢
  cases hfind : ir.ports.find? (fun p => p.name == s) with
  | some p => rw [hfind] at hs; simpa [hfind] using hs
  | none =>
      rw [hfind] at hs
      have hs' : ir.vars.find? (fun v => v.name == s) = some i := hs
      simp only [hfind, List.find?_append, hs']
      rfl

theorem hasVarB_vars_append_one (ir : IRGenerator) (v : IRVar) (n : String)
    (h : ir.hasVarB n = false) (hne : (v.name == n) = false) :
    IRGenerator.hasVarB { ir with vars := ir.vars ++ [v] } n = false := by
  unfold IRGenerator.hasVarB at h ⊢
  simp only [List.any_append]
  rw [Bool.or_eq_false_iff] at h
  simp [h.1, h.2, hne]

/-- First `reg_next` for a clock: the posedge sequential block is
created and cached under the clock name, a fresh variable shaped like
the source is declared, and the assignment is appended to the block. -/
theorem reg_next_fresh (g : Generator) (n s c : String) (i : IRVar)
    (hc : g.gen.is_cloned = false)
    (hclk : g.gen.hasPortB c = true)
    (hcache : lookupA g.reg_next_stmt c = none)
    (hs : g.gen.signalInfo s = some i)
    (hn : g.gen.hasVarB n = false) :
    g.reg_next n s (some c) = .ok ⟨n, i.width, i.signed, i.size⟩
      { g with
        gen := { g.gen with
          vars := g.gen.vars ++ [⟨n, i.width, i.signed, i.size⟩],
          stmt_store := g.gen.stmt_store ++ [.assignS n (.evar s)],
          blocks := g.gen.blocks ++
            [⟨.Sequential, [(.Posedge, c)], [g.gen.stmt_store.length]⟩] },
        reg_next_stmt := g.reg_next_stmt ++ [(c, some g.gen.blocks.length)] } := by
  have hvarc := hasVarB_of_hasPortB g.gen c hclk
  have hseq := sequential_ok g [(.Posedge, c)] hc (by simpa using hvarc)
  have hlk2 : lookupA (g.reg_next_stmt ++ [(c, some g.gen.blocks.length)]) c
      = some (some g.gen.blocks.length) :=
    lookupA_append_last _ _ _ (any_false_of_lookupA_none _ _ hcache)
  unfold IRGenerator.signalInfo at hs
  unfold IRGenerator.hasVarB at hn
  simp only [Generator.reg_next, gpnt_some g c .Clock hclk, hcache, hseq,
    Res.then, Generator.get_var_assert, IRGenerator.signalInfo, hs,
    Generator.create_new_var, Generator.var, IRGenerator.hasVarB, hn,
    Bool.false_eq_true, if_false, hlk2, Generator.blockAddStmt,
    IRGenerator.allocStmt, IRGenerator.modifyBlock, getD_append_len,
    set_append_len, List.nil_append, List.append_nil]

/-- Later `reg_next` for an already-cached clock: no new block; the
fresh shaped variable's assignment is appended to the cached block. -/
theorem reg_next_cached (g : Generator) (n s c : String) (i : IRVar)
    (bs : List StmtBlock) (blk : StmtBlock)
    (hb : g.gen.blocks = bs ++ [blk])
    (hclk : g.gen.hasPortB c = true)
    (hcache : lookupA g.reg_next_stmt c = some (some bs.length))
    (hs : g.gen.signalInfo s = some i)
    (hn : g.gen.hasVarB n = false) :
    g.reg_next n s (some c) = .ok ⟨n, i.width, i.signed, i.size⟩
      { g with gen := { g.gen with
          vars := g.gen.vars ++ [⟨n, i.width, i.signed, i.size⟩],
          stmt_store := g.gen.stmt_store ++ [.assignS n (.evar s)],
          blocks := bs ++
            [{ blk with stmts := blk.stmts ++ [g.gen.stmt_store.length] }] } } := by
  unfold IRGenerator.signalInfo at hs
  unfold IRGenerator.hasVarB at hn
  simp only [Generator.reg_next, gpnt_some g c .Clock hclk, hcache,
    Res.then, Generator.get_var_assert, IRGenerator.signalInfo, hs,
    Generator.create_new_var, Generator.var, IRGenerator.hasVarB, hn,
    Bool.false_eq_true, if_false, Generator.blockAddStmt,
    IRGenerator.allocStmt, IRGenerator.modifyBlock, hb, getD_append_len,
    set_append_len, List.nil_append, List.append_nil]

/-! ### Claim C4 -/

/-- C4: two `reg_next` calls with the same (existing) clock and fresh,
distinct variable names create exactly one sequential block, with
rising-edge sensitivity on the clock, cached by clock name, containing
the two assignments in call order; each call declares and returns a new
variable shaped like its source. -/
theorem c4_reg_next_shared_block (g : Generator) (c s1 s2 n1 n2 : String)
    (i1 i2 : IRVar)
    (hc : g.gen.is_cloned = false)
    (hclk : g.gen.hasPortB c = true)
    (hcache : lookupA g.reg_next_stmt c = none)
    (hs1 : g.gen.signalInfo s1 = some i1)
    (hs2 : g.gen.signalInfo s2 = some i2)
    (hn1 : g.gen.hasVarB n1 = false)
    (hn2 : g.gen.hasVarB n2 = false)
    (hne : (n1 == n2) = false) :
    ∃ g1 g2,
      g.reg_next n1 s1 (some c) = .ok ⟨n1, i1.width, i1.signed, i1.size⟩ g1 ∧
      g1.reg_next n2 s2 (some c) = .ok ⟨n2, i2.width, i2.signed, i2.size⟩ g2 ∧
      g2.gen.blocks = g.gen.blocks ++
        [⟨.Sequential, [(.Posedge, c)],
          [g.gen.stmt_store.length, g.gen.stmt_store.length + 1]⟩] ∧
      g2.gen.stmt_store = g.gen.stmt_store ++
        [.assignS n1 (.evar s1), .assignS n2 (.evar s2)] ∧
      lookupA g2.reg_next_stmt c = some (some g.gen.blocks.length) ∧
      g2.gen.vars = g.gen.vars ++
        [⟨n1, i1.width, i1.signed, i1.size⟩, ⟨n2, i2.width, i2.signed, i2.size⟩] := by
  have h1 := reg_next_fresh g n1 s1 c i1 hc hclk hcache hs1 hn1
  have hlk2 : lookupA (g.reg_next_stmt ++ [(c, some g.gen.blocks.length)]) c
      = some (some g.gen.blocks.length) :=
    lookupA_append_last _ _ _ (any_false_of_lookupA_none _ _ hcache)
  have h2 := reg_next_cached
    { g with
      gen := { g.gen with
        vars := g.gen.vars ++ [⟨n1, i1.width, i1.signed, i1.size⟩],
        stmt_store := g.gen.stmt_store ++ [.assignS n1 (.evar s1)],
        blocks := g.gen.blocks ++
          [⟨.Sequential, [(.Posedge, c)], [g.gen.stmt_store.length]⟩] },
      reg_next_stmt := g.reg_next_stmt ++ [(c, some g.gen.blocks.length)] }
    n2 s2 c i2 g.gen.blocks
    ⟨.Sequential, [(.Posedge, c)], [g.gen.stmt_store.length]⟩
    rfl hclk hlk2
    (signalInfo_vars_append g.gen [⟨n1, i1.width, i1.signed, i1.size⟩] s2 i2 hs2)
    (hasVarB_vars_append_one g.gen ⟨n1, i1.width, i1.signed, i1.size⟩ n2 hn2 hne)
  refine ⟨_, _, h1, h2, ?_, ?_, ?_, ?_⟩
  · simp
  · simp
  · exact hlk2
  · simp

/-- Witness for C4 at a concrete generator with one clock port and two
source variables. -/
theorem c4_reg_next_shared_block_witness :
    ∃ g1 g2,
      Generator.reg_next
        { gen := { ports := [⟨"clk", 1, .In, .Clock, false, 1⟩],
                   vars := [⟨"a", 8, false, 1⟩, ⟨"b", 4, true, 2⟩] } }
        "r1" "a" (some "clk") = .ok ⟨"r1", 8, false, 1⟩ g1 ∧
      g1.reg_next "r2" "b" (some "clk") = .ok ⟨"r2", 4, true, 2⟩ g2 ∧
      g2.gen.blocks = [⟨.Sequential, [(.Posedge, "clk")], [0, 1]⟩] ∧
      g2.gen.stmt_store =
        [.assignS "r1" (.evar "a"), .assignS "r2" (.evar "b")] ∧
      lookupA g2.reg_next_stmt "clk" = some (some 0) ∧
      g2.gen.vars = [⟨"a", 8, false, 1⟩, ⟨"b", 4, true, 2⟩,
        ⟨"r1", 8, false, 1⟩, ⟨"r2", 4, true, 2⟩] := by
  have h := c4_reg_next_shared_block
    { gen := { ports := [⟨"clk", 1, .In, .Clock, false, 1⟩],
               vars := [⟨"a", 8, false, 1⟩, ⟨"b", 4, true, 2⟩] } }
    "clk" "a" "b" "r1" "r2" ⟨"a", 8, false, 1⟩ ⟨"b", 4, true, 2⟩
    rfl rfl rfl rfl rfl rfl rfl rfl
  simpa using h

theorem getD_append_len_cons {α : Type} (l : List α) (b : α) (rest : List α)
    (d : α) : (l ++ b :: rest).getD l.length d = b := by
  induction l with
  | nil => rfl
  | cons x xs ih => simpa using ih

theorem set_append_len_cons {α : Type} (l : List α) (b b' : α)
    (rest : List α) : (l ++ b :: rest).set l.length b' = l ++ b' :: rest := by
  rw [List.set_append_right] <;> simp

/-- First `reg_init` for a (clock, reset) pair: one sequential block
sensitive to both rising edges is created holding a single conditional
branch on the reset, cached by the pair; the new shaped variable's
source assignment goes to the false path and its init assignment to the
true path. -/
theorem reg_init_fresh (g : Generator) (n s c r : String) (i : IRVar)
    (iv : Int)
    (hc : g.gen.is_cloned = false)
    (hclk : g.gen.hasPortB c = true)
    (hrst : g.gen.hasPortB r = true)
    (hcache : lookupA g.reg_init_stmt (c, r) = none)
    (hs : g.gen.signalInfo s = some i)
    (hn : g.gen.hasVarB n = false) :
    g.reg_init n s (some c) (some r) iv = .ok ⟨n, i.width, i.signed, i.size⟩
      { g with
        gen := { g.gen with
          vars := g.gen.vars ++ [⟨n, i.width, i.signed, i.size⟩],
          stmt_store := g.gen.stmt_store ++
            [.ifS r [g.gen.stmt_store.length + 2] [g.gen.stmt_store.length + 1],
             .assignS n (.evar s), .assignS n (.econst iv)],
          blocks := g.gen.blocks ++
            [⟨.Sequential, [(.Posedge, c), (.Posedge, r)],
              [g.gen.stmt_store.length]⟩] },
        reg_init_stmt := g.reg_init_stmt ++
          [((c, r), g.gen.stmt_store.length)] } := by
  have hvarc := hasVarB_of_hasPortB g.gen c hclk
  have hvarr := hasVarB_of_hasPortB g.gen r hrst
  have hseq := sequential_ok g [(.Posedge, c), (.Posedge, r)] hc (by
    intro x hx
    rcases List.mem_cons.mp hx with h | h
    · rw [h]; exact hvarc
    · simp only [List.mem_singleton] at h; rw [h]; exact hvarr)
  have hlk2 : lookupA (g.reg_init_stmt ++ [((c, r), g.gen.stmt_store.length)])
      (c, r) = some g.gen.stmt_store.length :=
    lookupA_append_last _ _ _ (any_false_of_lookupA_none _ _ hcache)
  unfold IRGenerator.signalInfo at hs
  unfold IRGenerator.hasVarB at hn
  simp only [Generator.reg_init, gpnt_some g c .Clock hclk,
    gpnt_some g r .AsyncReset hrst, hcache, hseq, Res.then,
    Generator.blockAddIf, IRGenerator.allocStmt, IRGenerator.modifyBlock,
    getD_append_len, set_append_len, hlk2, Generator.get_var_assert,
    IRGenerator.signalInfo, hs, Generator.create_new_var, Generator.var,
    IRGenerator.hasVarB, hn, Bool.false_eq_true, if_false,
    Generator.ifAddElse, Generator.ifAddThen, getD_append_len_cons,
    set_append_len_cons, List.nil_append, List.append_nil,
    List.append_assoc, List.cons_append, List.singleton_append,
    List.length_append, List.length_cons, List.length_nil]

/-- Later `reg_init` for an already-cached (clock, reset) pair: no new
block or branch; the two assignments are appended to the cached
branch's false and true paths. -/
theorem reg_init_cached (g : Generator) (n s c r : String) (i : IRVar)
    (iv : Int) (p : String) (t e : List Nat)
    (pre post : List StmtNode)
    (hst : g.gen.stmt_store = pre ++ .ifS p t e :: post)
    (hclk : g.gen.hasPortB c = true)
    (hrst : g.gen.hasPortB r = true)
    (hcache : lookupA g.reg_init_stmt (c, r) = some pre.length)
    (hs : g.gen.signalInfo s = some i)
    (hn : g.gen.hasVarB n = false) :
    g.reg_init n s (some c) (some r) iv = .ok ⟨n, i.width, i.signed, i.size⟩
      { g with
        gen := { g.gen with
          vars := g.gen.vars ++ [⟨n, i.width, i.signed, i.size⟩],
          stmt_store := pre ++
            .ifS p (t ++ [(pre ++ StmtNode.ifS p t e :: post).length + 1])
                   (e ++ [(pre ++ StmtNode.ifS p t e :: post).length]) ::
            (post ++ [.assignS n (.evar s), .assignS n (.econst iv)]) } } := by
  unfold IRGenerator.signalInfo at hs
  unfold IRGenerator.hasVarB at hn
  simp only [Generator.reg_init, gpnt_some g c .Clock hclk,
    gpnt_some g r .AsyncReset hrst, hcache, Res.then,
    Generator.get_var_assert, IRGenerator.signalInfo, hs,
    Generator.create_new_var, Generator.var, IRGenerator.hasVarB, hn,
    Bool.false_eq_true, if_false, Generator.ifAddElse, Generator.ifAddThen,
    IRGenerator.allocStmt, hst, getD_append_len_cons, set_append_len_cons,
    List.nil_append, List.append_nil, List.append_assoc, List.cons_append,
    List.singleton_append, List.length_append, List.length_cons,
    List.length_nil]
  ring_nf

/-! ### Claim C5 -/

/-- C5: the first `reg_init` for a (clock, reset) pair creates exactly
one sequential block, sensitive to the rising edges of both signals,
containing exactly one conditional branch on the reset whose true path
assigns the init value and whose false path assigns the source; a
second call with the equal pair appends its two assignments to the same
branch and creates no second block or branch. -/
theorem c5_reg_init_shared_branch (g : Generator) (c r s1 s2 n1 n2 : String)
    (i1 i2 : IRVar) (iv1 iv2 : Int)
    (hc : g.gen.is_cloned = false)
    (hclk : g.gen.hasPortB c = true)
    (hrst : g.gen.hasPortB r = true)
    (hcache : lookupA g.reg_init_stmt (c, r) = none)
    (hs1 : g.gen.signalInfo s1 = some i1)
    (hs2 : g.gen.signalInfo s2 = some i2)
    (hn1 : g.gen.hasVarB n1 = false)
    (hn2 : g.gen.hasVarB n2 = false)
    (hne : (n1 == n2) = false) :
    ∃ g1 g2,
      g.reg_init n1 s1 (some c) (some r) iv1 =
        .ok ⟨n1, i1.width, i1.signed, i1.size⟩ g1 ∧
      g1.reg_init n2 s2 (some c) (some r) iv2 =
        .ok ⟨n2, i2.width, i2.signed, i2.size⟩ g2 ∧
      g2.gen.blocks = g.gen.blocks ++
        [⟨.Sequential, [(.Posedge, c), (.Posedge, r)],
          [g.gen.stmt_store.length]⟩] ∧
      g2.gen.stmt_store = g.gen.stmt_store ++
        [.ifS r [g.gen.stmt_store.length + 2, g.gen.stmt_store.length + 4]
               [g.gen.stmt_store.length + 1, g.gen.stmt_store.length + 3],
         .assignS n1 (.evar s1), .assignS n1 (.econst iv1),
         .assignS n2 (.evar s2), .assignS n2 (.econst iv2)] ∧
      lookupA g2.reg_init_stmt (c, r) = some g.gen.stmt_store.length ∧
      g2.gen.vars = g.gen.vars ++
        [⟨n1, i1.width, i1.signed, i1.size⟩,
         ⟨n2, i2.width, i2.signed, i2.size⟩] := by
  have h1 := reg_init_fresh g n1 s1 c r i1 iv1 hc hclk hrst hcache hs1 hn1
  have hlk2 : lookupA (g.reg_init_stmt ++ [((c, r), g.gen.stmt_store.length)])
      (c, r) = some g.gen.stmt_store.length :=
    lookupA_append_last _ _ _ (any_false_of_lookupA_none _ _ hcache)
  have h2 := reg_init_cached
    { g with
      gen := { g.gen with
        vars := g.gen.vars ++ [⟨n1, i1.width, i1.signed, i1.size⟩],
        stmt_store := g.gen.stmt_store ++
          [.ifS r [g.gen.stmt_store.length + 2] [g.gen.stmt_store.length + 1],
           .assignS n1 (.evar s1), .assignS n1 (.econst iv1)],
        blocks := g.gen.blocks ++
          [⟨.Sequential, [(.Posedge, c), (.Posedge, r)],
            [g.gen.stmt_store.length]⟩] },
      reg_init_stmt := g.reg_init_stmt ++
        [((c, r), g.gen.stmt_store.length)] }
    n2 s2 c r i2 iv2 r
    [g.gen.stmt_store.length + 2] [g.gen.stmt_store.length + 1]
    g.gen.stmt_store [.assignS n1 (.evar s1), .assignS n1 (.econst iv1)]
    (by simp) hclk hrst hlk2
    (signalInfo_vars_append g.gen [⟨n1, i1.width, i1.signed, i1.size⟩] s2 i2 hs2)
    (hasVarB_vars_append_one g.gen ⟨n1, i1.width, i1.signed, i1.size⟩ n2 hn2 hne)
  refine ⟨_, _, h1, h2, ?_, ?_, ?_, ?_⟩
  · simp
  · simp
  · exact hlk2
  · simp

/-- Witness for C5 at a concrete generator with clock and async-reset
ports and two source variables. -/
theorem c5_reg_init_shared_branch_witness :
    ∃ g1 g2,
      Generator.reg_init
        { gen := { ports := [⟨"clk", 1, .In, .Clock, false, 1⟩,
                             ⟨"rst", 1, .In, .AsyncReset, false, 1⟩],
                   vars := [⟨"a", 8, false, 1⟩, ⟨"b", 4, true, 2⟩] } }
        "r1" "a" (some "clk") (some "rst") 0 = .ok ⟨"r1", 8, false, 1⟩ g1 ∧
      g1.reg_init "r2" "b" (some "clk") (some "rst") 3 =
        .ok ⟨"r2", 4, true, 2⟩ g2 ∧
      g2.gen.blocks =
        [⟨.Sequential, [(.Posedge, "clk"), (.Posedge, "rst")], [0]⟩] ∧
      g2.gen.stmt_store =
        [.ifS "rst" [2, 4] [1, 3],
         .assignS "r1" (.evar "a"), .assignS "r1" (.econst 0),
         .assignS "r2" (.evar "b"), .assignS "r2" (.econst 3)] ∧
      lookupA g2.reg_init_stmt ("clk", "rst") = some 0 ∧
      g2.gen.vars = [⟨"a", 8, false, 1⟩, ⟨"b", 4, true, 2⟩,
        ⟨"r1", 8, false, 1⟩, ⟨"r2", 4, true, 2⟩] := by
  have h := c5_reg_init_shared_branch
    { gen := { ports := [⟨"clk", 1, .In, .Clock, false, 1⟩,
                         ⟨"rst", 1, .In, .AsyncReset, false, 1⟩],
               vars := [⟨"a", 8, false, 1⟩, ⟨"b", 4, true, 2⟩] } }
    "clk" "rst" "a" "b" "r1" "r2" ⟨"a", 8, false, 1⟩ ⟨"b", 4, true, 2⟩ 0 3
    rfl rfl rfl rfl rfl rfl rfl rfl rfl
  simpa using h

/-! ### Claim C6 -/

theorem hasPortB_false_of_hasVarB_false (ir : IRGenerator) (n : String)
    (h : ir.hasVarB n = false) : ir.hasPortB n = false := by
  unfold IRGenerator.hasVarB at h
  rw [Bool.or_eq_false_iff] at h
  exact h.1

theorem hasPortB_of_getPortsOfType_head (ir : IRGenerator) (pt : PortType)
    (nm : String) (rest : List String)
    (h : ir.getPortsOfType pt = nm :: rest) : ir.hasPortB nm = true := by
  unfold IRGenerator.getPortsOfType at h
  unfold IRGenerator.hasPortB
  have hmem : nm ∈ (ir.ports.filter fun p => p.port_type == pt).map
      (fun p => p.name) := by
    rw [h]
    simp
  rw [List.mem_map] at hmem
  obtain ⟨p, hp, hpn⟩ := hmem
  rw [List.any_eq_true]
  exact ⟨p, List.mem_of_mem_filter hp, by simp [hpn]⟩

/-- Counterexample to C6 as stated: with two clock-typed ports and the
clock argument omitted, `reg_next` succeeds (resolving to the first
clock) instead of raising a fatal error. -/
theorem c6_multiple_clocks_no_error :
    (Generator.reg_next
      { gen := { ports := [⟨"c1", 1, .In, .Clock, false, 1⟩,
                           ⟨"c2", 1, .In, .Clock, false, 1⟩],
                 vars := [⟨"a", 8, false, 1⟩] } }
      "r" "a" none).isOk = true := by decide

/-- C6 (amended): an omitted clock/reset resolves to the first backend
port of the requested type — zero candidates is a fatal assertion
failure, multiple candidates are not an error — and each register
helper fails with an UnknownSignalError when a named clock, reset,
enable, or source signal does not exist as a port or variable on the
generator. -/
theorem c6_resolution_and_unknown_signal :
    (∀ (g : Generator) (pt : PortType), g.gen.getPortsOfType pt = [] →
      g.get_port_name_type none pt = .error (.assertErr "signal not found")) ∧
    (∀ (g : Generator) (pt : PortType) (nm : String) (rest : List String),
      g.gen.getPortsOfType pt = nm :: rest →
      g.get_port_name_type none pt = .ok nm) ∧
    (∀ (g : Generator) (n s cn : String), g.gen.hasVarB cn = false →
      g.reg_next n s (some cn) = .err (.unknownSignal cn) g) ∧
    (∀ (g : Generator) (n s cn : String) (bb : Option Nat),
      g.gen.hasPortB cn = true →
      lookupA g.reg_next_stmt cn = some bb →
      g.gen.signalInfo s = none →
      g.reg_next n s (some cn) = .err (.unknownSignal s) g) ∧
    (∀ (g : Generator) (n s cn rn : String) (iv : Int),
      g.gen.hasPortB cn = true → g.gen.hasVarB rn = false →
      g.reg_init n s (some cn) (some rn) iv = .err (.unknownSignal rn) g) ∧
    (∀ (g : Generator) (n s cn rn : String) (iv : Int) (k : Nat),
      g.gen.hasPortB cn = true → g.gen.hasPortB rn = true →
      lookupA g.reg_init_stmt (cn, rn) = some k →
      g.gen.signalInfo s = none →
      g.reg_init n s (some cn) (some rn) iv = .err (.unknownSignal s) g) ∧
    (∀ (g : Generator) (n s en cn : String), g.gen.hasVarB cn = false →
      g.reg_enable n s en (some cn) = .err (.unknownSignal cn) g) ∧
    (∀ (g : Generator) (n s en cn : String), g.gen.hasPortB cn = true →
      g.gen.hasVarB s = false →
      g.reg_enable n s en (some cn) = .err (.unknownSignal s) g) ∧
    (∀ (g : Generator) (n s en cn : String), g.gen.hasPortB cn = true →
      g.gen.hasPortB s = true → g.gen.hasVarB en = false →
      g.reg_enable n s en (some cn) = .err (.unknownSignal en) g) := by
  refine ⟨?_, ?_, ?_, ?_, ?_, ?_, ?_, ?_, ?_⟩
  · intro g pt h
    simp [Generator.get_port_name_type, h]
  · intro g pt nm rest h
    have hp := hasPortB_of_getPortsOfType_head g.gen pt nm rest h
    simp [Generator.get_port_name_type, h, hp]
  · intro g n s cn h
    have hp := hasPortB_false_of_hasVarB_false g.gen cn h
    simp [Generator.reg_next, Generator.get_port_name_type, hp]
  · intro g n s cn bb hp hlk hs
    unfold IRGenerator.signalInfo at hs
    simp only [Generator.reg_next, gpnt_some g cn .Clock hp, hlk, Res.then,
      Generator.get_var_assert, IRGenerator.signalInfo, hs]
  · intro g n s cn rn iv hp h
    have hr := hasPortB_false_of_hasVarB_false g.gen rn h
    simp [Generator.reg_init, Generator.get_port_name_type, hp, hr]
  · intro g n s cn rn iv k hp hr hlk hs
    unfold IRGenerator.signalInfo at hs
    simp only [Generator.reg_init, gpnt_some g cn .Clock hp,
      gpnt_some g rn .AsyncReset hr, hlk, Res.then,
      Generator.get_var_assert, IRGenerator.signalInfo, hs]
  · intro g n s en cn h
    have hp := hasPortB_false_of_hasVarB_false g.gen cn h
    simp [Generator.reg_enable, Generator.get_port_name_type, hp]
  · intro g n s en cn hp hsv
    have hs := hasPortB_false_of_hasVarB_false g.gen s hsv
    simp [Generator.reg_enable, gpnt_some g cn .Clock hp, hs]
  · intro g n s en cn hp hsp hen
    have he := hasPortB_false_of_hasVarB_false g.gen en hen
    have hsv := hasVarB_of_hasPortB g.gen s hsp
    simp [Generator.reg_enable, gpnt_some g cn .Clock hp, hsp, hsv, he]

/-- Witness for C6 (amended) at concrete inputs: an absent named clock
makes `reg_next` fail with an UnknownSignalError, and an omitted clock
resolves to the first clock-typed port. -/
theorem c6_resolution_and_unknown_signal_witness :
    (Generator.reg_next
      { gen := { vars := [⟨"a", 8, false, 1⟩] } } "r" "a" (some "nope") =
      .err (.unknownSignal "nope")
        { gen := { vars := [⟨"a", 8, false, 1⟩] } }) ∧
    (Generator.get_port_name_type
      { gen := { ports := [⟨"c1", 1, .In, .Clock, false, 1⟩,
                           ⟨"c2", 1, .In, .Clock, false, 1⟩] } }
      none .Clock = .ok "c1") :=
  ⟨c6_resolution_and_unknown_signal.2.2.1
      { gen := { vars := [⟨"a", 8, false, 1⟩] } } "r" "a" "nope" rfl,
   c6_resolution_and_unknown_signal.2.1
      { gen := { ports := [⟨"c1", 1, .In, .Clock, false, 1⟩,
                           ⟨"c2", 1, .In, .Clock, false, 1⟩] } }
      .Clock "c1" ["c2"] rfl⟩

/-! ### Lemmas on the object graph -/

theorem length_setGen (ctx : Ctx) (i : Nat) (g : Generator) :
    (setGen ctx i g).gens.length = ctx.gens.length := by
  simp [setGen]

theorem getGen_set_self (ctx : Ctx) (i : Nat) (g : Generator)
    (h : i < ctx.gens.length) : getGen (setGen ctx i g) i = g := by
  simp [getGen, setGen, List.getD_eq_getElem?_getD, List.getElem?_set_self, h]

theorem getGen_set_ne (ctx : Ctx) (i j : Nat) (g : Generator)
    (h : i ≠ j) : getGen (setGen ctx j g) i = getGen ctx i := by
  simp [getGen, setGen, List.getD_eq_getElem?_getD,
    List.getElem?_set_ne (Ne.symm h)]

theorem getGen_modify_self (ctx : Ctx) (i : Nat) (f : Generator → Generator)
    (h : i < ctx.gens.length) :
    getGen (modifyGen ctx i f) i = f (getGen ctx i) :=
  getGen_set_self ctx i _ h

theorem getGen_modify_ne (ctx : Ctx) (i j : Nat) (f : Generator → Generator)
    (h : i ≠ j) : getGen (modifyGen ctx j f) i = getGen ctx i :=
  getGen_set_ne ctx i j _ h

theorem length_modifyGen (ctx : Ctx) (i : Nat) (f : Generator → Generator) :
    (modifyGen ctx i f).gens.length = ctx.gens.length :=
  length_setGen ctx i _

/-! ### Claim C8 -/

/-- C8: on a non-cloned parent, `add_child_generator` with an instance
name already among the children raises a duplicate error and registers
nothing (child map and backend links unchanged); with a fresh instance
name it records the child in the parent's child map, mirrors the link
in the backend, and sets the child's parent reference and instance
name. -/
theorem c8_add_child_duplicate (ctx : Ctx) (p c : Nat) (iname : String)
    (hp : p < ctx.gens.length) (hcv : c < ctx.gens.length) (hne : p ≠ c)
    (hcl : (getGen ctx p).gen.is_cloned = false) :
    ((getGen ctx p).child_generator.any (fun q => q.1 == iname) = true →
      ∃ ctx', add_child_generator ctx p iname c =
          .err (.duplicateName iname) ctx' ∧
        (getGen ctx' p).child_generator = (getGen ctx p).child_generator ∧
        (getGen ctx' p).gen.children = (getGen ctx p).gen.children) ∧
    ((getGen ctx p).child_generator.any (fun q => q.1 == iname) = false →
      ∃ ctx', add_child_generator ctx p iname c = .ok () ctx' ∧
        (getGen ctx' p).child_generator =
          (getGen ctx p).child_generator ++ [(iname, c)] ∧
        (getGen ctx' p).gen.children =
          (getGen ctx p).gen.children ++ [(iname, c)] ∧
        (getGen ctx' c).parent = some p ∧
        (getGen ctx' c).gen.instance_name = iname) := by
  have hgp1 : getGen (modifyGen ctx c (fun cg =>
      { cg with gen := { cg.gen with instance_name := iname } })) p
      = getGen ctx p := getGen_modify_ne ctx p c _ hne
  constructor
  · intro hdup
    refine ⟨modifyGen ctx c (fun cg =>
        { cg with gen := { cg.gen with instance_name := iname } }), ?_, ?_, ?_⟩
    · unfold add_child_generator
      rw [hcl]
      simp only [Bool.false_eq_true, if_false, hgp1, hdup, if_true]
    · rw [hgp1]
    · rw [hgp1]
  · intro hfresh
    refine ⟨modifyGen (modifyGen (modifyGen ctx c (fun cg =>
        { cg with gen := { cg.gen with instance_name := iname } })) p (fun g =>
        { g with child_generator := g.child_generator ++ [(iname, c)],
                 gen := { g.gen with children := g.gen.children ++ [(iname, c)] } }))
        c (fun cg => { cg with parent := some p }), ?_, ?_, ?_, ?_, ?_⟩
    · unfold add_child_generator
      rw [hcl]
      simp only [Bool.false_eq_true, if_false, hgp1, hfresh]
    · rw [getGen_modify_ne _ p c _ hne,
        getGen_modify_self _ p _ (by simp [length_modifyGen, hp]), hgp1]
    · rw [getGen_modify_ne _ p c _ hne,
        getGen_modify_self _ p _ (by simp [length_modifyGen, hp]), hgp1]
    · rw [getGen_modify_self _ c _
        (by simp [length_modifyGen, hcv])]
    · rw [getGen_modify_self _ c _
        (by simp [length_modifyGen, hcv]),
        getGen_modify_ne _ c p _ (Ne.symm hne),
        getGen_modify_self _ c _ (by simp [length_modifyGen, hcv])]

/-- Witness for C8: a two-generator graph; adding under a fresh name
succeeds and registers everything, adding under the existing name
fails. -/
theorem c8_add_child_duplicate_witness :
    ((getGen { gens := [{ child_generator := [("kid", 1)] }, { }] } 0
        ).child_generator.any (fun q => q.1 == "kid") = true →
      ∃ ctx', add_child_generator
          { gens := [{ child_generator := [("kid", 1)] }, { }] } 0 "kid" 1 =
          .err (.duplicateName "kid") ctx' ∧
        (getGen ctx' 0).child_generator =
          (getGen { gens := [{ child_generator := [("kid", 1)] }, { }] } 0
            ).child_generator ∧
        (getGen ctx' 0).gen.children =
          (getGen { gens := [{ child_generator := [("kid", 1)] }, { }] } 0
            ).gen.children) ∧
    ((getGen { gens := [{ child_generator := [("kid", 1)] }, { }] } 0
        ).child_generator.any (fun q => q.1 == "kid") = false →
      ∃ ctx', add_child_generator
          { gens := [{ child_generator := [("kid", 1)] }, { }] } 0 "kid" 1 =
          .ok () ctx' ∧
        (getGen ctx' 0).child_generator =
          (getGen { gens := [{ child_generator := [("kid", 1)] }, { }] } 0
            ).child_generator ++ [("kid", 1)] ∧
        (getGen ctx' 0).gen.children =
          (getGen { gens := [{ child_generator := [("kid", 1)] }, { }] } 0
            ).gen.children ++ [("kid", 1)] ∧
        (getGen ctx' 1).parent = some 0 ∧
        (getGen ctx' 1).gen.instance_name = "kid") :=
  c8_add_child_duplicate { gens := [{ child_generator := [("kid", 1)] }, { }] }
    0 1 "kid" (by decide) (by decide) (by decide) rfl

/-! ### Claim C9 -/

/-- C9: `get_marked_stmt` on an absent label fails with a not-found
error; `mark_stmt` on a fresh label succeeds; a second `mark_stmt` with
the same label fails with a duplicate error and changes nothing; after
the successful registration `get_marked_stmt` returns exactly the
handle registered first. -/
theorem c9_mark_stmt_registry (g : Generator) (L : String)
    (b1 b2 : StmtHandle)
    (hnb : g.gen.named_blocks.any (fun p => p.1 == L) = false)
    (hmap : g.stmt_label_mapping.any (fun p => p.1 == L) = false) :
    g.get_marked_stmt L = .error (.assertErr L) ∧
    ∃ g1, g.mark_stmt L b1 = .ok () g1 ∧
      g1.mark_stmt L b2 = .err (.duplicateName L) g1 ∧
      g1.get_marked_stmt L = .ok b1 := by
  refine ⟨?_, { g with
      stmt_label_mapping := g.stmt_label_mapping ++ [(L, b1)],
      gen := { g.gen with named_blocks :=
        g.gen.named_blocks ++ [(L, b1.raw)] } }, ?_, ?_, ?_⟩
  · simp [Generator.get_marked_stmt, lookupA,
      find?_eq_none_of_any_false _ _ hmap]
  · simp [Generator.mark_stmt, hnb]
  · simp [Generator.mark_stmt, List.any_append]
  · simp [Generator.get_marked_stmt, lookupA, List.find?_append,
      find?_eq_none_of_any_false _ _ hmap]

/-- Witness for C9 at a concrete generator and label. -/
theorem c9_mark_stmt_registry_witness :
    Generator.get_marked_stmt { } "L" = .error (.assertErr "L") ∧
    ∃ g1, Generator.mark_stmt { } "L" (.blockH 0) = .ok () g1 ∧
      g1.mark_stmt "L" (.wrapperH 1) = .err (.duplicateName "L") g1 ∧
      g1.get_marked_stmt "L" = .ok (.blockH 0) :=
  c9_mark_stmt_registry { } "L" (.blockH 0) (.wrapperH 1) rfl rfl

/-! ### Lemmas on kwargs hashing and lookup -/

theorem getD_append_left {α : Type} (l l' : List α) (i : Nat) (d : α)
    (h : i < l.length) : (l ++ l').getD i d = l.getD i d := by
  simp [List.getD_eq_getElem?_getD, List.getElem?_append_left, h]

theorem getD_set_self {α : Type} (l : List α) (i : Nat) (g d : α)
    (h : i < l.length) : (l.set i g).getD i d = g := by
  simp [List.getD_eq_getElem?_getD, List.getElem?_set_self, h]

/-- The XOR-accumulated kwargs hash is independent of iteration order. -/
theorem kwargsHash_perm (k1 k2 : Kwargs) (p : k1.Perm k2) :
    kwargsHash k1 = kwargsHash k2 := by
  have rc : RightCommutative (fun (h : Nat) (q : (_ : String) × Val) =>
      h ^^^ ((pyHash (.vstr q.1) <<< 16) ^^^ pyHash q.2)) := by
    constructor
    intro a b c
    generalize (pyHash (Val.vstr b.1) <<< 16) ^^^ pyHash b.2 = hb
    generalize (pyHash (Val.vstr c.1) <<< 16) ^^^ pyHash c.2 = hc
    rw [Nat.xor_assoc, Nat.xor_assoc, Nat.xor_comm hb hc]
  exact p.foldl_eq 0

/-- Equal mappings (a permutation of entries with no duplicate keys)
agree on every lookup. -/
theorem dlookup_perm_of_nodupKeys (k1 k2 : Kwargs) (p : k1.Perm k2)
    (nd : k1.NodupKeys) (a : String) : k1.dlookup a = k2.dlookup a :=
  List.perm_dlookup a nd ((List.perm_nodupKeys p).mp nd) p

theorem any_key_false_of_dlookup_none (kargs : Kwargs) (k : String)
    (h : kargs.dlookup k = none) :
    kargs.any (fun p => p.1 == k) = false := by
  rw [List.dlookup_eq_none] at h
  rw [List.any_eq_false]
  intro x hx
  simp only [beq_iff_eq]
  intro hk
  exact h (hk ▸ List.mem_keys_of_mem hx)

theorem kwInsert_not_mem (kargs : Kwargs) (k : String) (v : Val)
    (h : kargs.dlookup k = none) :
    kwInsert kargs k v = kargs ++ [⟨k, v⟩] := by
  unfold kwInsert
  simp [any_key_false_of_dlookup_none kargs k h]

theorem dlookup_append_left_some (l1 l2 : Kwargs) (a : String) (v : Val)
    (h : l1.dlookup a = some v) : (l1 ++ l2).dlookup a = some v := by
  rw [List.dlookup_append, h]
  rfl

theorem dlookup_append_right_none (l1 l2 : Kwargs) (a : String)
    (h : l1.dlookup a = none) : (l1 ++ l2).dlookup a = l2.dlookup a := by
  rw [List.dlookup_append, h]
  rfl

theorem dlookup_append_single_ne (l1 : Kwargs) (k a : String) (v : Val)
    (h : a ≠ k) : (l1 ++ [⟨k, v⟩] : Kwargs).dlookup a = l1.dlookup a := by
  rw [List.dlookup_append, List.dlookup_cons_ne _ _ h, List.dlookup_nil]
  cases l1.dlookup a <;> rfl

/-! ### The two paths through the definition cache -/

/-- `create` on a cache miss: a new instance is constructed through
`Generator.__init__` with the given kwargs and memoized under the
mapping's hash. -/
theorem create_miss (ctx : Ctx) (cls : Nat) (k : Kwargs) (nm : String)
    (d : Bool)
    (hdbg : ctx.global_debug = false)
    (hmiss : lookupA (ctx.classes.getD cls default).cache (kwargsHash k) = none)
    (hname : k.dlookup "name" = some (.vstr nm))
    (hdeb : (match k.dlookup "debug" with
      | some (.vbool b) => b
      | _ => false) = d)
    (hic : (match k.dlookup "is_clone" with
      | some (.vbool b) => b
      | _ => false) = false) :
    create ctx cls k = .ok ctx.gens.length
      { ctx with
        gens := ctx.gens ++
          [{ gen := { name := nm, is_cloned := nm.isEmpty,
                      debug := d || ctx.global_debug },
             def_instance := ctx.gens.length }],
        context_gens := if !nm.isEmpty then ctx.context_gens ++ [ctx.gens.length]
          else ctx.context_gens,
        classes := ctx.classes.set cls
          { ctx.classes.getD cls default with cache :=
             (ctx.classes.getD cls default).cache ++
               [(kwargsHash k, ctx.gens.length)] } } := by
  simp only [create, hdbg, Bool.false_eq_true, if_false, cachedPyGenerator,
    hmiss, genInitKw, hname, hdeb, hic, genInit, Bool.not_false,
    Bool.true_and, Bool.not_not, Res.then, modifyClass, Bool.false_eq_true]

/-- `create` on a cache hit: the same class is constructed with
`is_clone=True` appended to the kwargs, and the fresh object's
definition-of-record (Python and backend side) is pointed at the cached
instance. -/
theorem create_hit (ctx : Ctx) (cls : Nat) (k : Kwargs) (nm : String)
    (d : Bool) (gid : Nat)
    (hdbg : ctx.global_debug = false)
    (hhit : lookupA (ctx.classes.getD cls default).cache (kwargsHash k) = some gid)
    (hname : k.dlookup "name" = some (.vstr nm))
    (hic : k.dlookup "is_clone" = none)
    (hdeb : (match k.dlookup "debug" with
      | some (.vbool b) => b
      | _ => false) = d) :
    create ctx cls k = .ok ctx.gens.length
      { ctx with gens := ctx.gens ++
        [{ gen := { name := nm, is_cloned := true,
                    debug := d || ctx.global_debug,
                    def_instance := some gid },
           def_instance := gid }] } := by
  have hname2 : (k ++ [⟨"is_clone", Val.vbool true⟩] : Kwargs).dlookup "name"
      = some (.vstr nm) := dlookup_append_left_some _ _ _ _ hname
  have hic2 : (k ++ [⟨"is_clone", Val.vbool true⟩] : Kwargs).dlookup "is_clone"
      = some (.vbool true) := by
    rw [dlookup_append_right_none _ _ _ hic]
    exact List.dlookup_cons_eq _ _ _
  have hdeb2 : (match (k ++ [⟨"is_clone", Val.vbool true⟩] : Kwargs).dlookup
      "debug" with
      | some (.vbool b) => b
      | _ => false) = d := by
    rw [dlookup_append_single_ne k "is_clone" "debug" _ (by decide)]
    exact hdeb
  have hlen : ctx.gens.length < (ctx.gens ++
      [({ gen := { name := nm, is_cloned := true,
                   debug := d || ctx.global_debug },
          def_instance := ctx.gens.length } : Generator)]).length := by
    simp
  simp only [create, hdbg, Bool.false_eq_true, if_false, cachedPyGenerator,
    hhit, Res.then, if_true, kwInsert_not_mem k _ _ hic, genInitKw, hname2,
    hic2, hdeb2, genInit, Bool.not_true, Bool.false_and, Bool.not_false,
    if_false, modifyGen, getGen, setGen, getD_append_len, set_append_len]

/-! ### Claim C1 -/

/-- C1: with caching active, two `create` calls on the same subclass
with equal keyword mappings (entry permutations with no duplicate keys)
yield a fresh instance and then a clone of it: the second instance's
`def_instance` (and its backend `def_instance`) is the first instance,
the second is flagged cloned and the first is not. -/
theorem c1_create_cache_clone (ctx : Ctx) (cls : Nat) (k1 k2 : Kwargs)
    (nm : String)
    (hperm : k1.Perm k2)
    (hnd : k1.NodupKeys)
    (hdbg : ctx.global_debug = false)
    (hcls : cls < ctx.classes.length)
    (hmiss : lookupA (ctx.classes.getD cls default).cache (kwargsHash k1) = none)
    (hname : k1.dlookup "name" = some (.vstr nm))
    (hnm : nm.isEmpty = false)
    (hic : k1.dlookup "is_clone" = none) :
    ∃ ctx1 ctx2 g1 g2,
      create ctx cls k1 = .ok g1 ctx1 ∧
      create ctx1 cls k2 = .ok g2 ctx2 ∧
      (getGen ctx2 g2).def_instance = g1 ∧
      (getGen ctx2 g2).gen.def_instance = some g1 ∧
      (getGen ctx2 g2).gen.is_cloned = true ∧
      (getGen ctx2 g1).gen.is_cloned = false := by
  have e1 := create_miss ctx cls k1 nm
    (match k1.dlookup "debug" with
      | some (.vbool b) => b
      | _ => false) hdbg hmiss hname rfl (by rw [hic])
  set ctx1 : Ctx :=
    { ctx with
      gens := ctx.gens ++
        [{ gen := { name := nm, is_cloned := nm.isEmpty,
                    debug := (match k1.dlookup "debug" with
                      | some (.vbool b) => b
                      | _ => false) || ctx.global_debug },
           def_instance := ctx.gens.length }],
      context_gens := if !nm.isEmpty then ctx.context_gens ++ [ctx.gens.length]
        else ctx.context_gens,
      classes := ctx.classes.set cls
        { ctx.classes.getD cls default with cache :=
           (ctx.classes.getD cls default).cache ++
             [(kwargsHash k1, ctx.gens.length)] } } with hctx1
  have hdbg1 : ctx1.global_debug = false := hdbg
  have hhit : lookupA (ctx1.classes.getD cls default).cache (kwargsHash k2)
      = some ctx.gens.length := by
    rw [← kwargsHash_perm k1 k2 hperm]
    have hcg : ctx1.classes.getD cls default =
        { ctx.classes.getD cls default with cache :=
           (ctx.classes.getD cls default).cache ++
             [(kwargsHash k1, ctx.gens.length)] } := by
      rw [hctx1]
      exact getD_set_self _ _ _ _ hcls
    rw [hcg]
    exact lookupA_append_last _ _ _ (any_false_of_lookupA_none _ _ hmiss)
  have hname2 : k2.dlookup "name" = some (.vstr nm) := by
    rw [← dlookup_perm_of_nodupKeys k1 k2 hperm hnd]
    exact hname
  have hic2 : k2.dlookup "is_clone" = none := by
    rw [← dlookup_perm_of_nodupKeys k1 k2 hperm hnd]
    exact hic
  have e2 := create_hit ctx1 cls k2 nm
    (match k2.dlookup "debug" with
      | some (.vbool b) => b
      | _ => false) ctx.gens.length hdbg1 hhit hname2 hic2 rfl
  refine ⟨ctx1, _, ctx.gens.length, ctx1.gens.length, e1, e2, ?_, ?_, ?_, ?_⟩
  · simp only [getGen, getD_append_len]
  · simp only [getGen, getD_append_len]
  · simp only [getGen, getD_append_len]
  · have hlt : ctx.gens.length < ctx1.gens.length := by
      rw [hctx1]
      simp
    simp only [getGen, getD_append_left _ _ _ _ hlt, hctx1,
      getD_append_len]
    exact hnm

/-- Witness for C1: two permuted, equal kwargs mappings on a subclass
with an empty cache. -/
theorem c1_create_cache_clone_witness :
    ∃ ctx1 ctx2 g1 g2,
      create { classes := [{ }, { parent := some 0 }] } 1
        [⟨"name", .vstr "mod"⟩, ⟨"width", .vnat 8⟩] = .ok g1 ctx1 ∧
      create ctx1 1 [⟨"width", .vnat 8⟩, ⟨"name", .vstr "mod"⟩] = .ok g2 ctx2 ∧
      (getGen ctx2 g2).def_instance = g1 ∧
      (getGen ctx2 g2).gen.def_instance = some g1 ∧
      (getGen ctx2 g2).gen.is_cloned = true ∧
      (getGen ctx2 g1).gen.is_cloned = false :=
  c1_create_cache_clone { classes := [{ }, { parent := some 0 }] } 1
    [⟨"name", .vstr "mod"⟩, ⟨"width", .vnat 8⟩]
    [⟨"width", .vnat 8⟩, ⟨"name", .vstr "mod"⟩] "mod"
    (List.Perm.swap _ _ _) (by simp [List.NodupKeys, List.keys])
    rfl (by decide) rfl rfl rfl rfl

/-! ### Claim C3 -/

theorem getD_map_lt {α β : Type} (l : List α) (f : α → β) (j : Nat)
    (h : j < l.length) (d : β) (d' : α) :
    (l.map f).getD j d = f (l.getD j d') := by
  simp [List.getD_eq_getElem?_getD, List.getElem?_map,
    List.getElem?_eq_getElem, h]

/-- After `clear_context`, every class whose direct base is `Generator`
has an empty cache. -/
theorem clear_context_direct_cache (ctx : Ctx) (j : Nat)
    (hj : (ctx.classes.getD j default).parent = some 0) :
    ((clear_context ctx).classes.getD j default).cache = [] := by
  have hjlt : j < ctx.classes.length := by
    by_contra hge
    rw [List.getD_eq_default _ _ (Nat.le_of_not_lt hge)] at hj
    simp [default] at hj
  unfold clear_context
  rw [getD_map_lt _ _ j hjlt _ default, hj]
  simp

/-- Counterexample to C3 as stated: `Generator.__subclasses__()` yields
only direct subclasses, so an indirect subclass (class 2, deriving from
the direct subclass 1) keeps its cache across `clear_context`, and a
subsequent `create` with the previously cached mapping still returns a
clone instead of a fresh instance. -/
theorem c3_indirect_subclass_cache_survives :
    ((clear_context exCtxIndirect).classes.getD 2 default).cache =
      [(kwargsHash [⟨"name", Val.vstr "b"⟩], 0)] ∧
    (create (clear_context exCtxIndirect) 2 [⟨"name", Val.vstr "b"⟩]).isOk
      = true ∧
    (getGen (create (clear_context exCtxIndirect) 2
      [⟨"name", Val.vstr "b"⟩]).getState 1).gen.is_cloned = true := by
  decide

/-- C3 (amended): `clear_context` resets the backend context and the
caches of all direct `Generator` subclasses together; afterwards a
`create` on a direct subclass with any keyword mapping (in particular a
previously cached one) constructs a fresh, fully-initialized, non-clone
instance that is its own definition.  Caches of indirect subclasses are
not cleared. -/
theorem c3_clear_context_direct (ctx : Ctx) (cls : Nat) (k : Kwargs)
    (nm : String)
    (hpar : (ctx.classes.getD cls default).parent = some 0)
    (hdbg : ctx.global_debug = false)
    (hname : k.dlookup "name" = some (.vstr nm))
    (hnm : nm.isEmpty = false)
    (hic : k.dlookup "is_clone" = none) :
    (clear_context ctx).context_gens = [] ∧
    (∀ j, (ctx.classes.getD j default).parent = some 0 →
      ((clear_context ctx).classes.getD j default).cache = []) ∧
    ∃ ctx', create (clear_context ctx) cls k =
        .ok (clear_context ctx).gens.length ctx' ∧
      (getGen ctx' (clear_context ctx).gens.length).gen.is_cloned = false ∧
      (getGen ctx' (clear_context ctx).gens.length).def_instance =
        (clear_context ctx).gens.length := by
  refine ⟨rfl, fun j hj => clear_context_direct_cache ctx j hj, ?_⟩
  have hmiss : lookupA
      (((clear_context ctx).classes.getD cls default)).cache (kwargsHash k)
      = none := by
    rw [clear_context_direct_cache ctx cls hpar]
    rfl
  have e := create_miss (clear_context ctx) cls k nm
    (match k.dlookup "debug" with
      | some (.vbool b) => b
      | _ => false) hdbg hmiss hname rfl (by rw [hic])
  refine ⟨_, e, ?_, ?_⟩
  · simp only [getGen, getD_append_len]
    exact hnm
  · simp only [getGen, getD_append_len]

/-- Witness for C3 (amended): concrete hierarchy with one direct
subclass holding a cached entry. -/
theorem c3_clear_context_direct_witness :
    (clear_context exCtxDirect).context_gens = [] ∧
    (∀ j, (exCtxDirect.classes.getD j default).parent = some 0 →
      ((clear_context exCtxDirect).classes.getD j default).cache = []) ∧
    ∃ ctx', create (clear_context exCtxDirect) 1 [⟨"name", Val.vstr "a"⟩] =
        .ok (clear_context exCtxDirect).gens.length ctx' ∧
      (getGen ctx' (clear_context exCtxDirect).gens.length).gen.is_cloned
        = false ∧
      (getGen ctx' (clear_context exCtxDirect).gens.length).def_instance =
        (clear_context exCtxDirect).gens.length :=
  c3_clear_context_direct exCtxDirect 1 [⟨"name", Val.vstr "a"⟩] "a"
    rfl rfl rfl rfl rfl

/-! ### Clone lifecycle lemmas -/

theorem getGen_set_oob (ctx : Ctx) (i j : Nat) (g : Generator)
    (h : ctx.gens.length ≤ j) : getGen (setGen ctx j g) i = getGen ctx i := by
  simp [getGen, setGen, List.set_eq_of_length_le h]

/-- Mutating one object through a function that does not touch the
cloned flag or the deferred-call queue leaves those two fields of every
object unchanged. -/
theorem getGen_modify_fields (ctx : Ctx) (i j : Nat)
    (f : Generator → Generator)
    (hf1 : ∀ g, (f g).gen.is_cloned = g.gen.is_cloned)
    (hf2 : ∀ g, (f g).cached_initialization = g.cached_initialization) :
    (getGen (modifyGen ctx j f) i).gen.is_cloned =
      (getGen ctx i).gen.is_cloned ∧
    (getGen (modifyGen ctx j f) i).cached_initialization =
      (getGen ctx i).cached_initialization := by
  by_cases hj : j < ctx.gens.length
  · by_cases hij : i = j
    · subst hij
      rw [getGen_modify_self ctx i f hj]
      exact ⟨hf1 _, hf2 _⟩
    · rw [getGen_modify_ne ctx i j f hij]
      exact ⟨rfl, rfl⟩
  · unfold modifyGen
    rw [getGen_set_oob ctx i j _ (Nat.le_of_not_lt hj)]
    exact ⟨rfl, rfl⟩

theorem then_ok_getState {σ α β : Type} (r : Res σ α) (v : β) :
    (r.then fun _ s => Res.ok v s).getState = r.getState := by
  cases r <;> rfl

theorem addCondition_preserves (g : Generator) (blk : Nat)
    (c : BlockEdgeType × String) : PreservesG g (g.addCondition blk c) := by
  unfold PreservesG Generator.addCondition
  by_cases h : g.gen.hasVarB c.2 <;>
    simp [h, Res.getState, IRGenerator.modifyBlock]

theorem addConditions_preserves (l : List (BlockEdgeType × String))
    (g : Generator) (blk : Nat) : PreservesG g (g.addConditions blk l) := by
  induction l generalizing g with
  | nil => exact ⟨rfl, rfl⟩
  | cons c rest ih =>
      unfold Generator.addConditions
      cases hres : g.addCondition blk c with
      | ok a g' =>
          have hp := addCondition_preserves g blk c
          rw [hres] at hp
          simp only [PreservesG, Res.getState] at hp
          simp only [Res.then]
          have h2 := ih g'
          exact ⟨h2.1.trans hp.1, h2.2.trans hp.2⟩
      | err e g' =>
          have hp := addCondition_preserves g blk c
          rw [hres] at hp
          simp only [PreservesG, Res.getState] at hp
          simp only [PreservesG, Res.then, Res.getState]
          exact hp

theorem blockAddStmts_preserves (l : List StmtVal) (g : Generator)
    (blk : Nat) :
    (g.blockAddStmts blk l).gen.is_cloned = g.gen.is_cloned ∧
    (g.blockAddStmts blk l).cached_initialization =
      g.cached_initialization := by
  induction l generalizing g with
  | nil => exact ⟨rfl, rfl⟩
  | cons s rest ih =>
      unfold Generator.blockAddStmts
      exact ih _

theorem combinational_preserves (g : Generator)
    (hc : g.gen.is_cloned = false) : PreservesG g g.combinational := by
  unfold PreservesG Generator.combinational
  simp [hc, Generator.newBlock, Res.getState]

theorem sequential_op_preserves (g : Generator)
    (sens : List (BlockEdgeType × String))
    (hc : g.gen.is_cloned = false) : PreservesG g (g.sequential sens) := by
  unfold PreservesG Generator.sequential
  rw [if_neg (by simp [hc])]
  simp only [Generator.newBlock]
  rw [then_ok_getState]
  exact addConditions_preserves sens _ _

theorem add_stmt_preserves (g : Generator) (s : StmtVal)
    (hc : g.gen.is_cloned = false) : PreservesG g (g.add_stmt s) := by
  unfold PreservesG Generator.add_stmt
  simp [hc, IRGenerator.allocStmt, Res.getState]

theorem remove_stmt_preserves (g : Generator) (s : StmtVal)
    (hc : g.gen.is_cloned = false) : PreservesG g (g.remove_stmt s) := by
  unfold PreservesG Generator.remove_stmt
  simp [hc, Res.getState]

theorem wire_preserves (g : Generator) (vto vfrom : String)
    (hc : g.gen.is_cloned = false) : PreservesG g (g.wire vto vfrom) := by
  unfold PreservesG Generator.wire
  by_cases h : (g.gen.hasVarB vto && g.gen.hasVarB vfrom) = true <;>
    simp [hc, h, IRGenerator.allocStmt, Res.getState]

theorem add_code_preserves (g : Generator) (body : CodeBody)
    (hc : g.gen.is_cloned = false) : PreservesG g (g.add_code body) := by
  unfold PreservesG Generator.add_code
  rw [if_neg (by simp [hc])]
  by_cases hemp : body.sens.isEmpty = true
  · rw [if_pos hemp]
    simp only [Generator.newBlock, Res.getState]
    exact blockAddStmts_preserves body.stmts _ _
  · rw [if_neg hemp]
    by_cases hall : (body.sens.all fun c => g.gen.hasVarB c.2) = true
    · rw [if_pos hall]
      simp only [Generator.newBlock]
      cases hres : Generator.addConditions
          { g with gen := { g.gen with blocks :=
              g.gen.blocks ++ [⟨.Sequential, [], []⟩] } }
          g.gen.blocks.length body.sens with
      | ok a g' =>
          have hp := addConditions_preserves body.sens
            { g with gen := { g.gen with blocks :=
                g.gen.blocks ++ [⟨.Sequential, [], []⟩] } }
            g.gen.blocks.length
          rw [hres] at hp
          simp only [PreservesG, Res.getState] at hp
          simp only [hres, Res.then, Res.getState]
          have h2 := blockAddStmts_preserves body.stmts g' g.gen.blocks.length
          exact ⟨h2.1.trans hp.1, h2.2.trans hp.2⟩
      | err e g' =>
          have hp := addConditions_preserves body.sens
            { g with gen := { g.gen with blocks :=
                g.gen.blocks ++ [⟨.Sequential, [], []⟩] } }
            g.gen.blocks.length
          rw [hres] at hp
          simp only [PreservesG, Res.getState] at hp
          simp only [hres, Res.then, Res.getState]
          exact hp
    · rw [if_neg hall]
      exact ⟨rfl, rfl⟩

theorem liftGen_getState {α : Type} (op : Generator → Res Generator α)
    (ctx : Ctx) (i : Nat) :
    (liftGen op ctx i).getState =
      setGen ctx i ((op (getGen ctx i)).getState) := by
  unfold liftGen
  cases op (getGen ctx i) <;> rfl

theorem then_unit_getState {σ α : Type} (r : Res σ α) :
    (r.then fun _ c => Res.ok () c).getState = r.getState := by
  cases r <;> rfl

theorem liftGen_preserves {α : Type} (op : Generator → Res Generator α)
    (ctx : Ctx) (i : Nat)
    (hop : PreservesG (getGen ctx i) (op (getGen ctx i))) :
    (getGen (setGen ctx i ((op (getGen ctx i)).getState)) i).gen.is_cloned =
      (getGen ctx i).gen.is_cloned ∧
    (getGen (setGen ctx i
        ((op (getGen ctx i)).getState)) i).cached_initialization =
      (getGen ctx i).cached_initialization := by
  by_cases hi : i < ctx.gens.length
  · rw [getGen_set_self ctx i _ hi]
    exact hop
  · rw [getGen_set_oob ctx i i _ (Nat.le_of_not_lt hi)]
    exact ⟨rfl, rfl⟩

/-- Replaying one queued call on an active (non-cloned) generator never
touches its cloned flag or its queue. -/
theorem applyPending_preserves (ctx : Ctx) (i : Nat) (op : PendingOp)
    (hc : (getGen ctx i).gen.is_cloned = false) :
    PreservesC ctx i (applyPending ctx i op) := by
  cases op with
  | pCombinational =>
      unfold PreservesC
      simp only [applyPending]
      rw [then_unit_getState, liftGen_getState]
      exact liftGen_preserves _ ctx i (combinational_preserves _ hc)
  | pSequential sens =>
      unfold PreservesC
      simp only [applyPending]
      rw [then_unit_getState, liftGen_getState]
      exact liftGen_preserves (fun g => g.sequential sens) ctx i
        (sequential_op_preserves _ sens hc)
  | pAddCode body =>
      unfold PreservesC
      simp only [applyPending]
      rw [liftGen_getState]
      exact liftGen_preserves (fun g => g.add_code body) ctx i
        (add_code_preserves _ body hc)
  | pAddStmt s =>
      unfold PreservesC
      simp only [applyPending]
      rw [liftGen_getState]
      exact liftGen_preserves (fun g => g.add_stmt s) ctx i
        (add_stmt_preserves _ s hc)
  | pRemoveStmt s =>
      unfold PreservesC
      simp only [applyPending]
      rw [liftGen_getState]
      exact liftGen_preserves (fun g => g.remove_stmt s) ctx i
        (remove_stmt_preserves _ s hc)
  | pWire vto vfrom =>
      unfold PreservesC
      simp only [applyPending]
      rw [liftGen_getState]
      exact liftGen_preserves (fun g => g.wire vto vfrom) ctx i
        (wire_preserves _ vto vfrom hc)
  | pAddChild iname ch =>
      unfold PreservesC
      simp only [applyPending]
      unfold add_child_generator
      rw [if_neg (by simp [hc])]
      have hp1 := getGen_modify_fields ctx i ch (fun c =>
        { c with gen := { c.gen with instance_name := iname } })
        (fun _ => rfl) (fun _ => rfl)
      by_cases hdup : ((getGen (modifyGen ctx ch (fun c =>
          { c with gen := { c.gen with instance_name := iname } })) i
            ).child_generator.any (fun p => p.1 == iname)) = true
      · simp only [hdup, if_true, Res.getState]
        exact hp1
      · simp only [hdup, if_false, Res.getState]
        have hp2 := getGen_modify_fields
          (modifyGen ctx ch (fun c =>
            { c with gen := { c.gen with instance_name := iname } })) i i
          (fun g => { g with
            child_generator := g.child_generator ++ [(iname, ch)],
            gen := { g.gen with children := g.gen.children ++ [(iname, ch)] } })
          (fun _ => rfl) (fun _ => rfl)
        have hp3 := getGen_modify_fields
          (modifyGen (modifyGen ctx ch (fun c =>
            { c with gen := { c.gen with instance_name := iname } })) i
            (fun g => { g with
              child_generator := g.child_generator ++ [(iname, ch)],
              gen := { g.gen with children :=
                g.gen.children ++ [(iname, ch)] } })) i ch
          (fun c => { c with parent := some i })
          (fun _ => rfl) (fun _ => rfl)
        exact ⟨hp3.1.trans (hp2.1.trans hp1.1),
               hp3.2.trans (hp2.2.trans hp1.2)⟩
  | pRemoveChild ch =>
      unfold PreservesC
      simp only [applyPending]
      unfold remove_child_generator
      rw [if_neg (by simp [hc])]
      by_cases habs : ((getGen ctx i).child_generator.any
          (fun p => p.1 == (getGen ctx ch).gen.instance_name)) = true
      · rw [if_neg (by simp [habs])]
        simp only [Res.getState]
        exact getGen_modify_fields ctx i i _ (fun _ => rfl) (fun _ => rfl)
      · rw [if_pos (by simp [habs])]
        exact ⟨rfl, rfl⟩

/-- While cloned, each queueable public call is captured: the only
change is the call record appended to the deferred-call queue. -/
theorem applyPending_cloned (ctx : Ctx) (i : Nat) (op : PendingOp)
    (hc : (getGen ctx i).gen.is_cloned = true) :
    applyPending ctx i op = .ok () (modifyGen ctx i (fun g =>
      { g with cached_initialization :=
        g.cached_initialization ++ [op] })) := by
  cases op with
  | pCombinational =>
      simp [applyPending, liftGen, Generator.combinational, hc, Res.then,
        modifyGen, setGen]
  | pSequential sens =>
      simp [applyPending, liftGen, Generator.sequential, hc, Res.then,
        modifyGen, setGen]
  | pAddCode body =>
      simp [applyPending, liftGen, Generator.add_code, hc, Res.then,
        modifyGen, setGen]
  | pAddStmt s =>
      simp [applyPending, liftGen, Generator.add_stmt, hc, Res.then,
        modifyGen, setGen]
  | pRemoveStmt s =>
      simp [applyPending, liftGen, Generator.remove_stmt, hc, Res.then,
        modifyGen, setGen]
  | pWire vto vfrom =>
      simp [applyPending, liftGen, Generator.wire, hc, Res.then,
        modifyGen, setGen]
  | pAddChild iname ch =>
      simp [applyPending, add_child_generator, hc]
  | pRemoveChild ch =>
      simp [applyPending, remove_child_generator, hc]

/-- Replaying a queue on an active generator keeps it active and never
grows (or consumes) the queue: every queued call is really applied. -/
theorem replayPending_preserves (ops : List PendingOp) (ctx : Ctx) (i : Nat)
    (hc : (getGen ctx i).gen.is_cloned = false) :
    (getGen ((replayPending ctx i ops).getState) i).gen.is_cloned = false ∧
    (getGen ((replayPending ctx i ops).getState) i).cached_initialization =
      (getGen ctx i).cached_initialization := by
  induction ops generalizing ctx with
  | nil => exact ⟨hc, rfl⟩
  | cons op rest ih =>
      simp only [replayPending]
      cases hres : applyPending ctx i op with
      | ok a c =>
          have hp := applyPending_preserves ctx i op hc
          unfold PreservesC at hp
          rw [hres] at hp
          simp only [Res.getState] at hp
          simp only [Res.then]
          have h2 := ih c (hp.1.trans hc)
          exact ⟨h2.1, h2.2.trans hp.2⟩
      | err e c =>
          have hp := applyPending_preserves ctx i op hc
          unfold PreservesC at hp
          rw [hres] at hp
          simp only [Res.getState] at hp
          simp only [Res.then, Res.getState]
          exact ⟨hp.1.trans hc, hp.2⟩

/-! ### Claim C2 -/

/-- Counterexample to C2 as stated: a variable addition on a
not-yet-initialized clone is applied to the backend generator
immediately — an observable IR change before `initialize_clone`
(`Generator.var` has no cloned-check; the same holds for `port`). -/
theorem c2_var_on_clone_mutates_ir :
    (getGen exCtxClone0 0).gen.is_cloned = true ∧
    (liftGen (fun g => g.var "v" 8 false 1) exCtxClone0 0).isOk = true ∧
    (getGen (liftGen (fun g => g.var "v" 8 false 1) exCtxClone0 0).getState
      0).gen.vars = [⟨"v", 8, false, 1⟩] ∧
    (getGen exCtxClone0 0).gen.vars = [] := by
  decide

/-- C2 (amended): while a generator is cloned, the queueable mutating
calls — statement addition/removal, wiring, `add_code`, combinational
and sequential block creation, child addition/removal — are deferred:
the only observable change is the call appended to the queue (port and
variable additions, by contrast, apply immediately).  The first
`initialize_clone` flips the cloned flag off, replays the queued calls
exactly once in original call order with their applied semantics, then
clears the queue; after a successful `initialize_clone` the generator
is active with an empty queue and a second `initialize_clone` is a
no-op. -/
theorem c2_clone_defer_replay (ctx : Ctx) (i : Nat)
    (hi : i < ctx.gens.length)
    (hc : (getGen ctx i).gen.is_cloned = true) :
    (∀ op : PendingOp, applyPending ctx i op = .ok ()
      (modifyGen ctx i (fun g => { g with cached_initialization :=
        g.cached_initialization ++ [op] }))) ∧
    (initialize_clone ctx i =
      (replayPending (modifyGen ctx i (fun g =>
          { g with gen := { g.gen with is_cloned := false } })) i
        ((getGen ctx i).cached_initialization)).then
        (fun _ c => .ok () (modifyGen c i (fun g =>
          { g with cached_initialization := [] })))) ∧
    (∀ ctx', initialize_clone ctx i = .ok () ctx' →
      (getGen ctx' i).gen.is_cloned = false ∧
      (getGen ctx' i).cached_initialization = [] ∧
      initialize_clone ctx' i = .ok () ctx') := by
  refine ⟨fun op => applyPending_cloned ctx i op hc, ?_, ?_⟩
  · unfold initialize_clone
    rw [if_pos hc]
  · intro ctx' h'
    unfold initialize_clone at h'
    rw [if_pos hc] at h'
    have hc0 : (getGen (modifyGen ctx i (fun g =>
        { g with gen := { g.gen with is_cloned := false } })) i).gen.is_cloned
        = false := by
      rw [getGen_modify_self _ _ _ hi]
    cases hres : replayPending (modifyGen ctx i (fun g =>
        { g with gen := { g.gen with is_cloned := false } })) i
        ((getGen ctx i).cached_initialization) with
    | ok a c =>
        rw [hres] at h'
        simp only [Res.then, Res.ok.injEq, true_and] at h'
        have hrep := replayPending_preserves
          ((getGen ctx i).cached_initialization)
          (modifyGen ctx i (fun g =>
            { g with gen := { g.gen with is_cloned := false } })) i hc0
        rw [hres] at hrep
        simp only [Res.getState] at hrep
        subst h'
        have hcl : (getGen (modifyGen c i (fun g =>
            { g with cached_initialization := [] })) i).gen.is_cloned
            = false := by
          by_cases hlen : i < c.gens.length
          · rw [getGen_modify_self _ _ _ hlen]
            exact hrep.1
          · unfold modifyGen
            rw [getGen_set_oob _ _ _ _ (Nat.le_of_not_lt hlen)]
            exact hrep.1
        have hq : (getGen (modifyGen c i (fun g =>
            { g with cached_initialization := [] })) i).cached_initialization
            = [] := by
          by_cases hlen : i < c.gens.length
          · rw [getGen_modify_self _ _ _ hlen]
          · unfold modifyGen
            rw [getGen_set_oob _ _ _ _ (Nat.le_of_not_lt hlen), getGen,
              List.getD_eq_default _ _ (Nat.le_of_not_lt hlen)]
            rfl
        refine ⟨hcl, hq, ?_⟩
        unfold initialize_clone
        rw [if_neg (by simp [hcl])]
    | err e c =>
        rw [hres] at h'
        simp only [Res.then] at h'
        exact absurd h' (by simp)

/-- Witness for C2 (amended): a cloned generator with one queued
`add_stmt`; a `wire` call is captured in the queue, and
`initialize_clone` applies the queued statement, clears the queue, and
a second call is a no-op. -/
theorem c2_clone_defer_replay_witness :
    (applyPending exCtxQueue 0 (.pWire "x" "x") = .ok ()
      (modifyGen exCtxQueue 0 (fun g => { g with cached_initialization :=
        g.cached_initialization ++ [.pWire "x" "x"] }))) ∧
    ((getGen exCtxDone 0).gen.is_cloned = false ∧
      (getGen exCtxDone 0).cached_initialization = [] ∧
      initialize_clone exCtxDone 0 = .ok () exCtxDone) := by
  have h := c2_clone_defer_replay exCtxQueue 0 (by decide) rfl
  exact ⟨h.1 _, h.2.2 _ (by decide)⟩

/-! ### Claim C10 -/

/-- C10: `Generator.__init__` with `is_clone=False` and an empty name
still produces a cloned instance (the empty-backend-generator branch),
and on any cloned generator every queueable mutating call (`add_stmt`,
`wire`, `add_code`, `combinational`, `sequential`, `add_child`,
`remove_child`, `remove_stmt`) is deferred into the initialization
queue rather than applied. -/
theorem c10_empty_name_clone :
    (∀ (ctx : Ctx) (d : Bool),
      (getGen (genInit ctx "" d false).2 (genInit ctx "" d false).1
        ).gen.is_cloned = true) ∧
    (∀ (ctx : Ctx) (i : Nat) (op : PendingOp),
      (getGen ctx i).gen.is_cloned = true →
      applyPending ctx i op = .ok () (modifyGen ctx i (fun g =>
        { g with cached_initialization :=
          g.cached_initialization ++ [op] }))) := by
  constructor
  · intro ctx d
    simp only [genInit, getGen, getD_append_len]
    decide
  · intro ctx i op hc
    exact applyPending_cloned ctx i op hc

/-- Witness for C10: the fixture built by `Generator("")` is cloned,
and a `combinational()` call on it is queued, not applied. -/
theorem c10_empty_name_clone_witness :
    (getGen (genInit { } "" false false).2
      (genInit { } "" false false).1).gen.is_cloned = true ∧
    applyPending exCtxClone0 0 .pCombinational = .ok ()
      (modifyGen exCtxClone0 0 (fun g =>
        { g with cached_initialization :=
          g.cached_initialization ++ [.pCombinational] })) :=
  ⟨c10_empty_name_clone.1 { } false,
   c10_empty_name_clone.2 exCtxClone0 0 .pCombinational (by decide)⟩

end KratosSpec
